import Mathlib

/-!
Shallow embedding of `lib/IDE/CursorInfo.cpp` (the cursor-info resolution
engine: NodeFinder, the shorthand-shadow map, the solution callback and the
result builder), together with proofs of the specified properties.

Conventions of the embedding:
- Source locations (`SourceLoc`) are natural numbers; a source range is a
  pair of bounds and containment is `lo ≤ p ∧ p ≤ hi`.
- AST nodes are a tree: each node is a declaration, an expression or a
  statement carrying the attributes this file inspects, plus a list of
  children in source order.
- `DeclContext` values are represented by `DCtx` (the file, a declaration
  that is a context, or a closure expression).
- External collaborators (the tree-walk driver, `getShorthandShadows`,
  `getSelectedOverloadInfo`, `ide::isDynamicRef`, `typeCheckASTNodeAtLoc`)
  are not part of the repository sources; where needed they are modelled
  from the specification, and each such definition says so in its doc
  comment.
-/

namespace CursorInfoModel

-- MARK: Data model

/-- A lexical decl context as tracked by `NodeFinder::DeclContextStack`:
the source file (always at the bottom of the stack), a declaration that is
a `DeclContext`, or a `ClosureExpr`. -/
inductive DCtx where
  | file
  | declCtx (id : Nat)
  | closureCtx (id : Nat)
deriving DecidableEq

instance : Inhabited DCtx := ⟨DCtx.file⟩

/-- The attributes of a `Decl` node that `NodeFinder` inspects:
its identity, `getLoc()`, `getSourceRangeIncludingAttrs()` (as bounds),
whether `dyn_cast<DeclContext>` succeeds, whether `dyn_cast<ValueDecl>`
succeeds, `VD->hasName()` (false whenever the node is not a `ValueDecl`,
since `hasName` is a `ValueDecl` member), and whether `isa<ParamDecl>`. -/
structure DeclInfo where
  declId : Nat
  loc : Nat
  rangeLo : Nat
  rangeHi : Nat
  isDeclContext : Bool
  isValueDecl : Bool
  hasName : Bool
  isParamDecl : Bool
deriving DecidableEq

/-- The expression kinds distinguished by `NodeFinder::walkToExprPre`:
the three directly reportable kinds of the `switch` on `E->getKind()`
(`DeclRef`, `UnresolvedDot`, `UnresolvedDeclRef`), the two structurally
special kinds (`ClosureExpr`, `CaptureListExpr`), and everything else. -/
inductive ExprKind where
  | declRef
  | unresolvedDot
  | unresolvedDeclRef
  | closure
  | captureList
  | other
deriving DecidableEq

/-- The attributes of an `Expr` node that `NodeFinder` inspects: identity,
`getLoc()`, kind, and — for a `CaptureListExpr` — the shorthand shadow
pairs `(shadowing decl, shadowed decl)` that the external
`getShorthandShadows` helper computes for it. -/
structure ExprInfo where
  exprId : Nat
  loc : Nat
  kind : ExprKind
  shadows : List (Nat × Nat)
deriving DecidableEq

/-- The attributes of a `Stmt` node that `NodeFinder` inspects: whether it
is a `LabeledConditionalStmt`, and in that case the shorthand shadow pairs
computed for it by the external `getShorthandShadows` helper. -/
structure StmtInfo where
  isLabeledConditional : Bool
  shadows : List (Nat × Nat)
deriving DecidableEq

/-- A syntax-tree node: a declaration, expression or statement together
with its children in source order. The walked source file is a list of
such nodes (its top-level declarations). -/
inductive ASTNode where
  | decl (d : DeclInfo) (children : List ASTNode)
  | expr (e : ExprInfo) (children : List ASTNode)
  | stmt (s : StmtInfo) (children : List ASTNode)

/-- The found node, mirroring `NodeFinderResult` with its two variants
`NodeFinderDeclResult` (the `ValueDecl`) and `NodeFinderExprResult`
(the expression and the `DeclContext` in which it occurs). -/
inductive NFResult where
  | declRes (declId : Nat)
  | exprRes (exprId : Nat) (dc : DCtx)
deriving DecidableEq

/-- The mutable state of a `NodeFinder` during `resolve()`: the
`DeclContextStack` (innermost context first), the `ShorthandShadowedDecls`
map (as an association list where the most recent insertion is found
first), the found `Result`, and a count of how many times the `Result`
slot was assigned (the source asserts it is assigned at most once). -/
structure WalkState where
  stack : List DCtx
  shadowMap : List (Nat × Nat)
  result : Option NFResult
  setCount : Nat
deriving DecidableEq

/-- The action returned by a pre-visitation hook, mirroring
`PreWalkAction`: skip the subtree, continue into it, or stop the whole
walk. -/
inductive PreAction where
  | skipChildren
  | cont
  | stop
deriving DecidableEq

-- MARK: NodeFinder steps

/-- Range containment test `rangeContainsLocToResolve`, our rendering of
`SourceManager::containsRespectingReplacedRanges(Range, LocToResolve)`. -/
def rangeContainsLocToResolve (d : DeclInfo) (tgt : Nat) : Bool :=
  d.rangeLo ≤ tgt && tgt ≤ d.rangeHi

/-- Assign the `Result` slot of the finder (the source asserts the slot is
still empty and then constructs the result). The assignment counter
records each such construction. -/
def setResult (st : WalkState) (r : NFResult) : WalkState :=
  { st with result := some r, setCount := st.setCount + 1 }

/-- Record the shorthand shadow pairs of a capture list or labeled
conditional statement into `ShorthandShadowedDecls`
(`ShorthandShadowedDecls[first] = second` for each pair; a `DenseMap`
assignment overwrites, so newer entries are found first here). -/
def recordShadows (pairs : List (Nat × Nat)) (st : WalkState) : WalkState :=
  { st with shadowMap := pairs.foldl (fun m p => p :: m) st.shadowMap }

/-- Translation of `NodeFinder::walkToDeclPre` (CursorInfo.cpp:179-204):
skip the subtree when the range including attributes does not contain the
target; push the decl when it is a `DeclContext`; then, when its location
is the target and it is a named `ValueDecl` that is not a `ParamDecl`,
record it as the result and stop; otherwise continue. -/
def walkToDeclPre (tgt : Nat) (d : DeclInfo) (st : WalkState) :
    WalkState × PreAction :=
  if !rangeContainsLocToResolve d tgt then
    (st, PreAction.skipChildren)
  else
    let st1 := if d.isDeclContext then
        { st with stack := DCtx.declCtx d.declId :: st.stack }
      else st
    if d.loc ≠ tgt then
      (st1, PreAction.cont)
    else if d.isValueDecl && (d.hasName && !d.isParamDecl) then
      (setResult st1 (NFResult.declRes d.declId), PreAction.stop)
    else
      (st1, PreAction.cont)

/-- Translation of `NodeFinder::walkToDeclPost` (CursorInfo.cpp:206-212):
pop the decl context that was pushed for this decl. -/
def walkToDeclPost (d : DeclInfo) (st : WalkState) : WalkState :=
  if d.isDeclContext then { st with stack := st.stack.tail } else st

/-- Translation of `NodeFinder::walkToExprPre` (CursorInfo.cpp:214-246):
push a closure as a decl context; record the shorthand shadows of a
capture list; then, when the expression location is the target and its
kind is `DeclRef`, `UnresolvedDot` or `UnresolvedDeclRef`, record the
expression together with the current decl context as the result and stop;
otherwise continue. -/
def walkToExprPre (tgt : Nat) (e : ExprInfo) (st : WalkState) :
    WalkState × PreAction :=
  let st1 := if e.kind = ExprKind.closure then
      { st with stack := DCtx.closureCtx e.exprId :: st.stack }
    else st
  let st2 := if e.kind = ExprKind.captureList then recordShadows e.shadows st1
    else st1
  if e.loc ≠ tgt then
    (st2, PreAction.cont)
  else
    match e.kind with
    | ExprKind.declRef | ExprKind.unresolvedDot | ExprKind.unresolvedDeclRef =>
      (setResult st2 (NFResult.exprRes e.exprId st2.stack.headI),
        PreAction.stop)
    | _ => (st2, PreAction.cont)

/-- Translation of `NodeFinder::walkToExprPost` (CursorInfo.cpp:248-254):
pop the closure context that was pushed for this expression. -/
def walkToExprPost (e : ExprInfo) (st : WalkState) : WalkState :=
  if e.kind = ExprKind.closure then { st with stack := st.stack.tail } else st

/-- Translation of `NodeFinder::walkToStmtPre` (CursorInfo.cpp:256-265):
record the shorthand shadows of a labeled conditional statement; the walk
always continues. -/
def walkToStmtPre (s : StmtInfo) (st : WalkState) : WalkState :=
  if s.isLabeledConditional then recordShadows s.shadows st else st

/-- Modelled from the spec: the external syntax-tree walk interface (spec
section 6) driving the pre/post visitation hooks of `NodeFinder`. For each
node in order: run the pre hook; on skip-subtree, neither the children nor
the post hook are visited; on stop, the walk ends immediately with no
further visits (spec section 4.1: on match, stop the walk immediately);
otherwise visit the children and, if none of them stopped the walk, run
the post hook. The boolean of the returned pair reports whether the walk
was stopped. -/
def walkForest (tgt : Nat) : List ASTNode → WalkState → WalkState × Bool
  | [], st => (st, false)
  | ASTNode.decl d cs :: rest, st =>
    match walkToDeclPre tgt d st with
    | (stP, PreAction.skipChildren) => walkForest tgt rest stP
    | (stP, PreAction.stop) => (stP, true)
    | (stP, PreAction.cont) =>
      match walkForest tgt cs stP with
      | (stC, true) => (stC, true)
      | (stC, false) => walkForest tgt rest (walkToDeclPost d stC)
  | ASTNode.expr e cs :: rest, st =>
    match walkToExprPre tgt e st with
    | (stP, PreAction.skipChildren) => walkForest tgt rest stP
    | (stP, PreAction.stop) => (stP, true)
    | (stP, PreAction.cont) =>
      match walkForest tgt cs stP with
      | (stC, true) => (stC, true)
      | (stC, false) => walkForest tgt rest (walkToExprPost e stC)
  | ASTNode.stmt s cs :: rest, st =>
    match walkForest tgt cs (walkToStmtPre s st) with
    | (stC, true) => (stC, true)
    | (stC, false) => walkForest tgt rest stC
termination_by l _ => sizeOf l

/-- The initial state of a `NodeFinder`: the stack holds the source file
(`DeclContextStack({&SrcFile})`), the shadow map is empty, no result. -/
def initialWalkState : WalkState :=
  { stack := [DCtx.file], shadowMap := [], result := none, setCount := 0 }

/-- Translation of `NodeFinder::resolve()`: walk the source file (its
top-level nodes) from the initial state and return the final state. -/
def nodeFinderResolve (tgt : Nat) (file : List ASTNode) : WalkState :=
  (walkForest tgt file initialWalkState).1

-- MARK: Shorthand shadowed decls

/-- Lookup in the `ShorthandShadowedDecls` map
(`ShorthandShadowedDecls[D]`; the `DenseMap` subscript yields the mapped
decl, or null when the key is absent). -/
def lookupShadow (m : List (Nat × Nat)) (k : Nat) : Option Nat :=
  (m.find? (fun p => p.1 == k)).map (fun p => p.2)

/-- The loop of `NodeFinder::getShorthandShadowedDecls`
(CursorInfo.cpp:152-161), with explicit fuel: starting from the shadowing
decl, repeatedly follow the map and push each shadowed decl, until the map
yields nothing (or the fuel runs out; with the fuel used below the fuel
never runs out on acyclic maps, which is proved as part of claim C6). -/
def shadowChainAux (m : List (Nat × Nat)) : Nat → Nat → List Nat
  | 0, _ => []
  | fuel + 1, d =>
    match lookupShadow m d with
    | none => []
    | some s => s :: shadowChainAux m fuel s

/-- Translation of `NodeFinder::getShorthandShadowedDecls`
(CursorInfo.cpp:152-161): the transitive chain of shorthand-shadowed
decls of `shadowingDecl`, ordered from innermost to outermost. -/
def getShorthandShadowedDecls (m : List (Nat × Nat)) (shadowingDecl : Nat) :
    List Nat :=
  shadowChainAux m m.length shadowingDecl

/-- Iterated lookup in the shadow map: `iterShadow m k d` is the decl
reached from `d` after following the map exactly `k` times, or `none` if
the map runs out before `k` steps. Specification-side companion of
`shadowChainAux`, used to state the ordering part of claim C6. -/
def iterShadow (m : List (Nat × Nat)) : Nat → Nat → Option Nat
  | 0, d => some d
  | k + 1, d =>
    match lookupShadow m d with
    | none => none
    | some s => iterShadow m k s

/-- Well-formedness precondition of the spec for the shadow map: no decl
can reach itself again by following the map one or more times. -/
def ShadowAcyclic (m : List (Nat × Nat)) : Prop :=
  ∀ d k, iterShadow m (k + 1) d ≠ some d

-- MARK: Types and solver solutions

/-- The fragment of the type system the result builder inspects: a
nominal type (carrying the identity of its `NominalTypeDecl`), a metatype
(carrying its instance type), or any other type. -/
inductive Ty where
  | nominal (id : Nat)
  | metatype (instanceTy : Ty)
  | other
deriving DecidableEq

/-- `Type::getAnyNominal()`: the nominal type decl of the type, when the
type is nominal (a metatype is not). -/
def Ty.getAnyNominal : Ty → Option Nat
  | Ty.nominal id => some id
  | _ => none

/-- `BaseType->getAs<AnyMetatypeType>()` followed by
`MT->getInstanceType()`: the instance type, when the type is a metatype. -/
def Ty.metatypeInstance : Ty → Option Ty
  | Ty.metatype t => some t
  | _ => none

/-- The data the solver hands `sawSolutionImpl` for one `Solution`,
abstracting the external solver (spec section 6): the selected overload
of the callee locator (`getSelectedOverloadInfo`: the referenced decl
`Value`, absent when no overload could be resolved, and the base type
`BaseTy`, absent for non-member references), the member-ref base
expression anchor (`simplifyLocatorToAnchor` on the `MemberRefBase`
locator), and the value of the external `ide::isDynamicRef` predicate on
that base. -/
structure Solution where
  overloadValue : Option Nat
  overloadBaseTy : Option Ty
  memberRefBaseExpr : Option Nat
  isDynamicRefPred : Bool
deriving DecidableEq

/-- `CursorInfoTypeCheckSolutionCallback::CursorInfoDeclReference`
(CursorInfo.cpp:272-280): base type of a member reference (may be
absent), whether the reference is dynamic, and the referenced decl. -/
structure CursorInfoDeclReference where
  baseType : Option Ty
  isDynamicRef : Bool
  referencedDecl : Nat
deriving DecidableEq

/-- Translation of
`CursorInfoTypeCheckSolutionCallback::sawSolutionImpl`
(CursorInfo.cpp:288-310): when no overload was resolved the solution is
skipped and contributes no reference; otherwise the dynamic flag is the
`ide::isDynamicRef` answer when a member-ref base expression exists and
false otherwise, and the reference records the overload base type, the
dynamic flag and the referenced decl. -/
def sawSolution (s : Solution) : Option CursorInfoDeclReference :=
  match s.overloadValue with
  | none => none
  | some vd =>
    let isDyn := match s.memberRefBaseExpr with
      | some _ => s.isDynamicRefPred
      | none => false
    some { baseType := s.overloadBaseTy, isDynamicRef := isDyn,
           referencedDecl := vd }

/-- The references collected by the callback over all solutions the
solver produced (`Callback.getResults()`), in solver order. -/
def collectResults (sols : List Solution) : List CursorInfoDeclReference :=
  sols.filterMap sawSolution

-- MARK: Result builder

/-- The fields of `ResolvedValueRefCursorInfo` that this file sets from
its own inputs: the referenced decl, `IsRef`, the container (base) type,
`IsDynamic`, the receiver types, and the shorthand shadowed decls. -/
structure CursorInfoAnswer where
  referencedDecl : Nat
  isRef : Bool
  containerType : Option Ty
  isDynamic : Bool
  receiverTypes : List Nat
  shorthandShadowedDecls : List Nat
deriving DecidableEq

/-- Translation of the receiver-type derivation in
`CursorInfoDoneParsingCallback::getExprResult` (CursorInfo.cpp:379-389):
when the reference is dynamic and has a base type, take the nominal type
decl of the base type; failing that, if the base type is a metatype, look
through it and take the nominal type decl of its instance type; in every
other case the receiver set is empty. -/
def deriveReceiverTypes (isDyn : Bool) (baseTy : Option Ty) : List Nat :=
  match isDyn, baseTy with
  | true, some bt =>
    match bt.getAnyNominal with
    | some receiver => [receiver]
    | none =>
      match bt.metatypeInstance with
      | some instanceTy =>
        match instanceTy.getAnyNominal with
        | some receiver => [receiver]
        | none => []
      | none => []
  | _, _ => []

/-- Modelled from the spec (section 4.3, receiver-type derivation), for
comparison with `deriveReceiverTypes`: the receiver type set is derived
by unwrapping a metatype to its instance type if present, then taking the
nominal type of the possibly unwrapped base type; if no nominal type is
obtainable, or the reference is not dynamic, or there is no base type,
the receiver set is empty. -/
def receiverTypesSpec (isDyn : Bool) (baseTy : Option Ty) : List Nat :=
  match isDyn, baseTy with
  | true, some bt =>
    let unwrapped := match bt.metatypeInstance with
      | some instanceTy => instanceTy
      | none => bt
    match unwrapped.getAnyNominal with
    | some receiver => [receiver]
    | none => []
  | _, _ => []

/-- Translation of `CursorInfoDoneParsingCallback::getDeclResult`
(CursorInfo.cpp:331-345): the answer for a located declaration marks it as
not a reference, has no container type, is not dynamic, has no receiver
types, and carries the shorthand shadow chain of the located decl. (The
call to `typeCheckDeclAndParentClosures` it performs only populates
type-checker side tables and sets none of these fields; it is modelled
separately below.) -/
def getDeclResult (shadowMap : List (Nat × Nat)) (declId : Nat) :
    CursorInfoAnswer :=
  { referencedDecl := declId, isRef := false, containerType := none,
    isDynamic := false, receiverTypes := [],
    shorthandShadowedDecls := getShorthandShadowedDecls shadowMap declId }

/-- Translation of `CursorInfoDoneParsingCallback::getExprResult`
(CursorInfo.cpp:347-399), taking the references the solver callback
collected for the located expression: with no collected reference the
result is null; with more than one collected reference the result is null
(the source notes reporting multiple results as a FIXME); with exactly one
reference the answer marks a reference, carries the base type as container
type, the dynamic flag, the derived receiver types, and the shorthand
shadow chain of the referenced decl. (The `typeCheckDeclAndParentClosures`
calls between the two checks only populate type-checker side tables.) -/
def getExprResult (shadowMap : List (Nat × Nat)) (sols : List Solution) :
    Option CursorInfoAnswer :=
  let results := collectResults sols
  if results.isEmpty then
    none
  else if results.length ≠ 1 then
    none
  else
    match results with
    | [] => none
    | res :: _ =>
      some { referencedDecl := res.referencedDecl, isRef := true,
             containerType := res.baseType,
             isDynamic := res.isDynamicRef,
             receiverTypes := deriveReceiverTypes res.isDynamicRef res.baseType,
             shorthandShadowedDecls :=
               getShorthandShadowedDecls shadowMap res.referencedDecl }

/-- What the external consumer observes for one query: either
`Consumer.handleResults` was never invoked, or it was invoked with a
(possibly null) cursor info result. -/
inductive ConsumerEvent where
  | notInvoked
  | invoked (result : Option CursorInfoAnswer)
deriving DecidableEq

/-- Translation of `CursorInfoDoneParsingCallback::doneParsing`
(CursorInfo.cpp:401-425): with no source file, return without invoking the
consumer; run the node finder; with no found node, return without
invoking the consumer; otherwise build the declaration or expression
answer and hand it (possibly null) to the consumer. The solutions the
solver produces for the statement containing a located expression are
supplied by the `solver` argument, indexed by the expression identity
(they come from the external `typeCheckASTNodeAtLoc` run with the
solution callback installed). -/
def doneParsing (srcFile : Option (List ASTNode)) (tgt : Nat)
    (solver : Nat → List Solution) : ConsumerEvent :=
  match srcFile with
  | none => ConsumerEvent.notInvoked
  | some f =>
    let st := nodeFinderResolve tgt f
    match st.result with
    | none => ConsumerEvent.notInvoked
    | some (NFResult.declRes d) =>
      ConsumerEvent.invoked (some (getDeclResult st.shadowMap d))
    | some (NFResult.exprRes e _) =>
      ConsumerEvent.invoked (getExprResult st.shadowMap (solver e))

-- MARK: On-demand type-checker trigger

/-- An entry of the decl-context chain of a declaration, as walked by
`typeCheckDeclAndParentClosures`: either an `AbstractClosureExpr` or any
other decl context. -/
inductive DCEntry where
  | closure (id : Nat)
  | otherCtx (id : Nat)
deriving DecidableEq

/-- The attributes of a `ValueDecl` that `typeCheckDeclAndParentClosures`
inspects: its identity, its decl-context chain from
`getDeclContext()` outward to the root (the last entry is the root, whose
`getParent()` is null), whether `dyn_cast<VarDecl>` succeeds, and whether
the var has an attached property wrapper. -/
structure VDecl where
  vid : Nat
  ctxChain : List DCEntry
  isVarDecl : Bool
  hasAttachedPropertyWrapper : Bool
deriving DecidableEq

/-- The type-checker side tables observable by
`typeCheckDeclAndParentClosures`: the types of closures
(`Closure->getType()`), the interface types of decls
(`VD->getInterfaceType()`), the property-wrapper backing types forced so
far, and the accessors emitted so far. -/
structure TCState where
  closureTypes : List (Nat × Ty)
  interfaceTypes : List (Nat × Ty)
  wrapperForced : List Nat
  accessorsEmitted : List Nat
deriving DecidableEq

/-- Lookup of a recorded type in a side table. -/
def lookupTy (tys : List (Nat × Ty)) (id : Nat) : Option Ty :=
  (tys.find? (fun p => p.1 == id)).map (fun p => p.2)

/-- Modelled from the spec: the external on-demand type-checking entry
point `typeCheckASTNodeAtLoc` (spec section 6), scoped here to the effect
this file observes — it assigns the node at the given location the type
that checking produces for it, if checking succeeds (a context that fails
to type-check simply yields an absent type, spec section 7). The oracle
argument gives, per node identity, the type checking would produce. -/
def applyCheck (oracle : Nat → Option Ty) (id : Nat) (tys : List (Nat × Ty)) :
    List (Nat × Ty) :=
  match oracle id with
  | some t => (id, t) :: tys
  | none => tys

/-- Force an idempotent request-evaluator computation (the
property-wrapper backing type, or the emission of synthesized accessors):
recorded once, a later forcing is a no-op. -/
def forceOnce (id : Nat) (forced : List Nat) : List Nat :=
  if id ∈ forced then forced else id :: forced

/-- The closure-typing loop of `typeCheckDeclAndParentClosures`
(CursorInfo.cpp:42-52): walk the decl-context chain while the context has
a parent; for each `AbstractClosureExpr` whose type is null, invoke
`typeCheckASTNodeAtLoc` in its parent context at its location. Returns
the updated state and the number of `typeCheckASTNodeAtLoc` invocations
performed. -/
def tcParentClosures (oracle : Nat → Option Ty) :
    List DCEntry → TCState → TCState × Nat
  | [], s => (s, 0)
  | [_], s => (s, 0)
  | dc :: rest, s =>
    let step : TCState × Nat :=
      match dc with
      | DCEntry.closure cid =>
        if (lookupTy s.closureTypes cid).isNone then
          ({ s with closureTypes := applyCheck oracle cid s.closureTypes }, 1)
        else (s, 0)
      | DCEntry.otherCtx _ => (s, 0)
    let rec0 := tcParentClosures oracle rest step.1
    (rec0.1, step.2 + rec0.2)

/-- The closures of a decl-context chain that the loop of
`tcParentClosures` examines: every closure entry except the root (the
root has no parent, so the loop never examines it). -/
def interiorClosures : List DCEntry → List Nat
  | [] => []
  | [_] => []
  | DCEntry.closure cid :: rest => cid :: interiorClosures rest
  | DCEntry.otherCtx _ :: rest => interiorClosures rest

/-- Translation of `typeCheckDeclAndParentClosures`
(CursorInfo.cpp:36-71): with a null decl, do nothing; otherwise type
check the parent closures that have no type yet; then, if the decl still
has no interface type, invoke `typeCheckASTNodeAtLoc` in its decl context
at its location; then, for a `VarDecl`, force the attached
property-wrapper backing type (when it has an attached wrapper) and visit
the emitted accessors. Returns the updated state and the number of
`typeCheckASTNodeAtLoc` invocations performed. -/
def typeCheckDeclAndParentClosures (oracleClosure : Nat → Option Ty)
    (oracleInterface : Nat → Option Ty) (vd : Option VDecl) (s : TCState) :
    TCState × Nat :=
  match vd with
  | none => (s, 0)
  | some VD =>
    let stepC := tcParentClosures oracleClosure VD.ctxChain s
    let stepI : TCState × Nat :=
      if (lookupTy stepC.1.interfaceTypes VD.vid).isNone then
        ({ stepC.1 with
             interfaceTypes := applyCheck oracleInterface VD.vid
               stepC.1.interfaceTypes }, 1)
      else (stepC.1, 0)
    let s3 :=
      if VD.isVarDecl then
        let s2 :=
          if VD.hasAttachedPropertyWrapper then
            { stepI.1 with
                wrapperForced := forceOnce VD.vid stepI.1.wrapperForced }
          else stepI.1
        { s2 with accessorsEmitted := forceOnce VD.vid s2.accessorsEmitted }
      else stepI.1
    (s3, stepC.2 + stepI.2)

-- MARK: Specification-side predicates over trees

/-- The match condition for declarations, as the specification states it
for `walkToDeclPre`: the location equals the target, the node is a
`ValueDecl`, it carries a name, and it is not a parameter. -/
def declMatchesTarget (tgt : Nat) (d : DeclInfo) : Prop :=
  d.loc = tgt ∧ d.isValueDecl = true ∧ d.hasName = true ∧ d.isParamDecl = false

/-- The match condition for expressions, as the specification states it
for `walkToExprPre`: the location equals the target and the kind is one
of the three directly reportable kinds. -/
def exprMatchesTarget (tgt : Nat) (e : ExprInfo) : Prop :=
  e.loc = tgt ∧ (e.kind = ExprKind.declRef ∨ e.kind = ExprKind.unresolvedDot ∨
    e.kind = ExprKind.unresolvedDeclRef)

/-- All declaration nodes of a forest, in pre-order. -/
def forestDecls : List ASTNode → List DeclInfo
  | [] => []
  | ASTNode.decl d cs :: rest => d :: (forestDecls cs ++ forestDecls rest)
  | ASTNode.expr _ cs :: rest => forestDecls cs ++ forestDecls rest
  | ASTNode.stmt _ cs :: rest => forestDecls cs ++ forestDecls rest
termination_by l => sizeOf l

/-- All expression nodes of a forest, in pre-order. -/
def forestExprs : List ASTNode → List ExprInfo
  | [] => []
  | ASTNode.decl _ cs :: rest => forestExprs cs ++ forestExprs rest
  | ASTNode.expr e cs :: rest => e :: (forestExprs cs ++ forestExprs rest)
  | ASTNode.stmt _ cs :: rest => forestExprs cs ++ forestExprs rest
termination_by l => sizeOf l

-- MARK: Concrete instances used to instantiate the theorems

/-- A named value declaration with its name at location 5. -/
def sampleNamedDecl : DeclInfo :=
  { declId := 1, loc := 5, rangeLo := 0, rangeHi := 10, isDeclContext := false,
    isValueDecl := true, hasName := true, isParamDecl := false }

/-- A source file consisting of a single named declaration. -/
def singleDeclForest : List ASTNode := [ASTNode.decl sampleNamedDecl []]

/-- A source file consisting of a closure expression whose body contains a
declaration reference at location 7. -/
def closureMatchForest : List ASTNode :=
  [ASTNode.expr { exprId := 1, loc := 0, kind := ExprKind.closure, shadows := [] }
    [ASTNode.expr { exprId := 2, loc := 7, kind := ExprKind.declRef, shadows := [] }
      []]]

/-- An unresolved declaration reference at location 4. -/
def unresolvedRefExpr : ExprInfo :=
  { exprId := 3, loc := 4, kind := ExprKind.unresolvedDeclRef, shadows := [] }

/-- A closure expression at location 0. -/
def closureExprAtZero : ExprInfo :=
  { exprId := 1, loc := 0, kind := ExprKind.closure, shadows := [] }

/-- A source file consisting of a single unresolved declaration reference
at location 4. -/
def exprOnlyForest : List ASTNode := [ASTNode.expr unresolvedRefExpr []]

/-- A solution whose overload could not be resolved. -/
def noOverloadSolution : Solution :=
  { overloadValue := none, overloadBaseTy := none, memberRefBaseExpr := none,
    isDynamicRefPred := false }

/-- A solution resolving the target expression to the given declaration,
with no member base. -/
def solutionToDecl (vd : Nat) : Solution :=
  { overloadValue := some vd, overloadBaseTy := none, memberRefBaseExpr := none,
    isDynamicRefPred := false }

/-- A declaration nested in one closure and one further context, with a
property wrapper, used to instantiate the idempotence theorem. -/
def sampleVDecl : VDecl :=
  { vid := 10, ctxChain := [DCEntry.closure 20, DCEntry.otherCtx 30],
    isVarDecl := true, hasAttachedPropertyWrapper := true }

/-- An oracle that lets every on-demand type check succeed. -/
def totalOracle : Nat → Option Ty := fun _ => some Ty.other

/-- A shadow map in which declaration 1 shadows 2 and 2 shadows 3. -/
def sampleShadowMap : List (Nat × Nat) := [(1, 2), (2, 3)]

/-- The empty type-checker state. -/
def emptyTCState : TCState :=
  { closureTypes := [], interfaceTypes := [], wrapperForced := [],
    accessorsEmitted := [] }

-- MARK: Step lemmas about the pre/post visitation hooks

theorem walkToDeclPre_stop_iff (tgt : Nat) (d : DeclInfo) (st : WalkState) :
    (walkToDeclPre tgt d st).2 = PreAction.stop ↔
      (rangeContainsLocToResolve d tgt = true ∧ d.loc = tgt ∧
        d.isValueDecl = true ∧ d.hasName = true ∧ d.isParamDecl = false) := by
  unfold walkToDeclPre
  by_cases hr : rangeContainsLocToResolve d tgt = true <;>
    by_cases hl : d.loc = tgt <;>
      cases hV : d.isValueDecl <;> cases hN : d.hasName <;>
        cases hP : d.isParamDecl <;>
          by_cases hdc : d.isDeclContext = true <;>
            simp_all [setResult]

theorem walkToDeclPre_skip_iff (tgt : Nat) (d : DeclInfo) (st : WalkState) :
    (walkToDeclPre tgt d st).2 = PreAction.skipChildren ↔
      rangeContainsLocToResolve d tgt = false := by
  unfold walkToDeclPre
  by_cases hr : rangeContainsLocToResolve d tgt = true <;>
    by_cases hl : d.loc = tgt <;>
      cases hV : d.isValueDecl <;> cases hN : d.hasName <;>
        cases hP : d.isParamDecl <;>
          by_cases hdc : d.isDeclContext = true <;>
            simp_all [setResult]

theorem walkToDeclPre_skip_state (tgt : Nat) (d : DeclInfo) (st : WalkState)
    (h : (walkToDeclPre tgt d st).2 = PreAction.skipChildren) :
    (walkToDeclPre tgt d st).1 = st := by
  unfold walkToDeclPre at h ⊢
  by_cases hr : rangeContainsLocToResolve d tgt = true <;>
    by_cases hl : d.loc = tgt <;>
      cases hV : d.isValueDecl <;> cases hN : d.hasName <;>
        cases hP : d.isParamDecl <;>
          by_cases hdc : d.isDeclContext = true <;>
            simp_all [setResult]

theorem walkToDeclPre_not_stop_state (tgt : Nat) (d : DeclInfo)
    (st : WalkState) (h : (walkToDeclPre tgt d st).2 ≠ PreAction.stop) :
    (walkToDeclPre tgt d st).1.result = st.result ∧
    (walkToDeclPre tgt d st).1.setCount = st.setCount := by
  unfold walkToDeclPre at h ⊢
  by_cases hr : rangeContainsLocToResolve d tgt = true <;>
    by_cases hl : d.loc = tgt <;>
      cases hV : d.isValueDecl <;> cases hN : d.hasName <;>
        cases hP : d.isParamDecl <;>
          by_cases hdc : d.isDeclContext = true <;>
            simp_all [setResult]

theorem walkToDeclPre_cont_stack (tgt : Nat) (d : DeclInfo) (st : WalkState)
    (h : (walkToDeclPre tgt d st).2 = PreAction.cont) :
    (walkToDeclPre tgt d st).1.stack =
      if d.isDeclContext then DCtx.declCtx d.declId :: st.stack
      else st.stack := by
  unfold walkToDeclPre at h ⊢
  by_cases hr : rangeContainsLocToResolve d tgt = true <;>
    by_cases hl : d.loc = tgt <;>
      cases hV : d.isValueDecl <;> cases hN : d.hasName <;>
        cases hP : d.isParamDecl <;>
          by_cases hdc : d.isDeclContext = true <;>
            simp_all [setResult]

theorem walkToDeclPre_stop_state (tgt : Nat) (d : DeclInfo) (st : WalkState)
    (h : (walkToDeclPre tgt d st).2 = PreAction.stop) :
    (walkToDeclPre tgt d st).1.result = some (NFResult.declRes d.declId) ∧
    (walkToDeclPre tgt d st).1.setCount = st.setCount + 1 := by
  unfold walkToDeclPre at h ⊢
  by_cases hr : rangeContainsLocToResolve d tgt = true <;>
    by_cases hl : d.loc = tgt <;>
      cases hV : d.isValueDecl <;> cases hN : d.hasName <;>
        cases hP : d.isParamDecl <;>
          by_cases hdc : d.isDeclContext = true <;>
            simp_all [setResult]

theorem walkToExprPre_stop_iff (tgt : Nat) (e : ExprInfo) (st : WalkState) :
    (walkToExprPre tgt e st).2 = PreAction.stop ↔
      (e.loc = tgt ∧ (e.kind = ExprKind.declRef ∨
        e.kind = ExprKind.unresolvedDot ∨
        e.kind = ExprKind.unresolvedDeclRef)) := by
  by_cases hl : e.loc = tgt <;>
    cases hk : e.kind <;>
      simp_all [walkToExprPre, recordShadows, setResult]

theorem walkToExprPre_ne_skip (tgt : Nat) (e : ExprInfo) (st : WalkState) :
    (walkToExprPre tgt e st).2 ≠ PreAction.skipChildren := by
  by_cases hl : e.loc = tgt <;>
    cases hk : e.kind <;>
      simp_all [walkToExprPre, recordShadows, setResult]

theorem walkToExprPre_not_stop_state (tgt : Nat) (e : ExprInfo)
    (st : WalkState) (h : (walkToExprPre tgt e st).2 ≠ PreAction.stop) :
    (walkToExprPre tgt e st).1.result = st.result ∧
    (walkToExprPre tgt e st).1.setCount = st.setCount ∧
    (walkToExprPre tgt e st).1.stack =
      (if e.kind = ExprKind.closure then DCtx.closureCtx e.exprId :: st.stack
        else st.stack) := by
  by_cases hl : e.loc = tgt <;>
    cases hk : e.kind <;>
      simp_all [walkToExprPre, recordShadows, setResult]

theorem walkToExprPre_stop_state (tgt : Nat) (e : ExprInfo) (st : WalkState)
    (h : (walkToExprPre tgt e st).2 = PreAction.stop) :
    (∃ dc, (walkToExprPre tgt e st).1.result =
      some (NFResult.exprRes e.exprId dc)) ∧
    (walkToExprPre tgt e st).1.setCount = st.setCount + 1 := by
  by_cases hl : e.loc = tgt <;>
    cases hk : e.kind <;>
      simp_all [walkToExprPre, recordShadows, setResult]

theorem walkToStmtPre_state (s : StmtInfo) (st : WalkState) :
    (walkToStmtPre s st).result = st.result ∧
    (walkToStmtPre s st).setCount = st.setCount ∧
    (walkToStmtPre s st).stack = st.stack := by
  by_cases hc : s.isLabeledConditional = true <;>
    simp_all [walkToStmtPre, recordShadows]

theorem walkToDeclPost_state (d : DeclInfo) (st : WalkState) :
    (walkToDeclPost d st).result = st.result ∧
    (walkToDeclPost d st).setCount = st.setCount ∧
    (walkToDeclPost d st).stack =
      (if d.isDeclContext then st.stack.tail else st.stack) := by
  by_cases hdc : d.isDeclContext = true <;> simp_all [walkToDeclPost]

theorem walkToExprPost_state (e : ExprInfo) (st : WalkState) :
    (walkToExprPost e st).result = st.result ∧
    (walkToExprPost e st).setCount = st.setCount ∧
    (walkToExprPost e st).stack =
      (if e.kind = ExprKind.closure then st.stack.tail else st.stack) := by
  by_cases hc : e.kind = ExprKind.closure <;> simp_all [walkToExprPost]

-- MARK: Walk invariants

theorem walkForest_invariant (tgt : Nat) (f : List ASTNode) (st : WalkState) :
    ((walkForest tgt f st).2 = false →
      ((walkForest tgt f st).1.stack = st.stack ∧
       (walkForest tgt f st).1.result = st.result ∧
       (walkForest tgt f st).1.setCount = st.setCount)) ∧
    ((walkForest tgt f st).2 = true →
      ((walkForest tgt f st).1.setCount = st.setCount + 1 ∧
       ((∃ d, d ∈ forestDecls f ∧ declMatchesTarget tgt d ∧
          (walkForest tgt f st).1.result = some (NFResult.declRes d.declId)) ∨
        (∃ e, e ∈ forestExprs f ∧ exprMatchesTarget tgt e ∧
          ∃ dc, (walkForest tgt f st).1.result =
            some (NFResult.exprRes e.exprId dc))))) := by
  induction f, st using walkForest.induct tgt with
  | case1 st =>
    constructor
    · intro _
      simp [walkForest]
    · intro h
      simp [walkForest] at h
  | case2 d cs rest st stP hpre ih =>
    have heq : walkForest tgt (ASTNode.decl d cs :: rest) st =
        walkForest tgt rest stP := by
      simp only [walkForest, hpre]
    have hstP : stP = st := by
      have h0 := walkToDeclPre_skip_state tgt d st (by rw [hpre])
      rw [hpre] at h0
      exact h0
    subst hstP
    constructor
    · intro h
      rw [heq] at h ⊢
      exact ih.1 h
    · intro h
      rw [heq] at h ⊢
      obtain ⟨hcnt, hsound⟩ := ih.2 h
      refine ⟨hcnt, ?_⟩
      rcases hsound with ⟨d0, hd0, hm0, hr0⟩ | ⟨e0, he0, hm0, hr0⟩
      · refine Or.inl ⟨d0, ?_, hm0, hr0⟩
        simp only [forestDecls, List.mem_cons, List.mem_append]
        exact Or.inr (Or.inr hd0)
      · refine Or.inr ⟨e0, ?_, hm0, hr0⟩
        simp only [forestExprs, List.mem_append]
        exact Or.inr he0
  | case3 d cs rest st stP hpre =>
    have heq : walkForest tgt (ASTNode.decl d cs :: rest) st = (stP, true) := by
      simp only [walkForest, hpre]
    have hstop := walkToDeclPre_stop_state tgt d st (by rw [hpre])
    rw [hpre] at hstop
    have hm := (walkToDeclPre_stop_iff tgt d st).mp (by rw [hpre])
    constructor
    · intro h
      rw [heq] at h
      exact absurd h (by simp)
    · intro _
      rw [heq]
      refine ⟨hstop.2, Or.inl ⟨d, ?_,
        ⟨hm.2.1, hm.2.2.1, hm.2.2.2.1, hm.2.2.2.2⟩, hstop.1⟩⟩
      simp [forestDecls]
  | case4 d cs rest st stP hpre stC hcs ihc =>
    have heq : walkForest tgt (ASTNode.decl d cs :: rest) st = (stC, true) := by
      simp only [walkForest, hpre, hcs]
    have hns : (walkToDeclPre tgt d st).2 ≠ PreAction.stop := by
      rw [hpre]
      intro hh
      exact PreAction.noConfusion hh
    have hpren := walkToDeclPre_not_stop_state tgt d st hns
    rw [hpre] at hpren
    have hp2 : stP.result = st.result := hpren.1
    have hp3 : stP.setCount = st.setCount := hpren.2
    obtain ⟨hcnt, hsound⟩ := ihc.2 (by rw [hcs])
    rw [hcs] at hcnt hsound
    have hc3 : stC.setCount = stP.setCount + 1 := hcnt
    constructor
    · intro h
      rw [heq] at h
      exact absurd h (by simp)
    · intro _
      rw [heq]
      constructor
      · show stC.setCount = st.setCount + 1
        rw [hc3, hp3]
      · rcases hsound with ⟨d0, hd0, hm0, hr0⟩ | ⟨e0, he0, hm0, hr0⟩
        · refine Or.inl ⟨d0, ?_, hm0, hr0⟩
          simp only [forestDecls, List.mem_cons, List.mem_append]
          exact Or.inr (Or.inl hd0)
        · refine Or.inr ⟨e0, ?_, hm0, hr0⟩
          simp only [forestExprs, List.mem_append]
          exact Or.inl he0
  | case5 d cs rest st stP hpre stC hcs ihc ihr =>
    have heq : walkForest tgt (ASTNode.decl d cs :: rest) st =
        walkForest tgt rest (walkToDeclPost d stC) := by
      simp only [walkForest, hpre, hcs]
    have hns : (walkToDeclPre tgt d st).2 ≠ PreAction.stop := by
      rw [hpre]
      intro hh
      exact PreAction.noConfusion hh
    have hpren := walkToDeclPre_not_stop_state tgt d st hns
    have hpstack := walkToDeclPre_cont_stack tgt d st (by rw [hpre])
    rw [hpre] at hpren hpstack
    have hp1 : stP.stack =
        (if d.isDeclContext then DCtx.declCtx d.declId :: st.stack
          else st.stack) := hpstack
    have hp2 : stP.result = st.result := hpren.1
    have hp3 : stP.setCount = st.setCount := hpren.2
    obtain ⟨hc1, hc2, hc3⟩ := by
      have h0 := ihc.1 (by rw [hcs])
      rw [hcs] at h0
      exact h0
    have hq1 : stC.stack = stP.stack := hc1
    have hq2 : stC.result = stP.result := hc2
    have hq3 : stC.setCount = stP.setCount := hc3
    have hpost := walkToDeclPost_state d stC
    have hw1 : (walkToDeclPost d stC).result = stC.result := hpost.1
    have hw2 : (walkToDeclPost d stC).setCount = stC.setCount := hpost.2.1
    have hw3 : (walkToDeclPost d stC).stack =
        (if d.isDeclContext then stC.stack.tail else stC.stack) := hpost.2.2
    constructor
    · intro h
      rw [heq] at h ⊢
      obtain ⟨hr1, hr2, hr3⟩ := ihr.1 h
      refine ⟨?_, ?_, ?_⟩
      · rw [hr1, hw3, hq1, hp1]
        by_cases hdc : d.isDeclContext = true
        · simp [hdc]
        · simp [hdc]
      · rw [hr2, hw1, hq2, hp2]
      · rw [hr3, hw2, hq3, hp3]
    · intro h
      rw [heq] at h ⊢
      obtain ⟨hcnt, hsound⟩ := ihr.2 h
      constructor
      · rw [hcnt, hw2, hq3, hp3]
      · rcases hsound with ⟨d0, hd0, hm0, hr0⟩ | ⟨e0, he0, hm0, hr0⟩
        · refine Or.inl ⟨d0, ?_, hm0, hr0⟩
          simp only [forestDecls, List.mem_cons, List.mem_append]
          exact Or.inr (Or.inr hd0)
        · refine Or.inr ⟨e0, ?_, hm0, hr0⟩
          simp only [forestExprs, List.mem_append]
          exact Or.inr he0
  | case6 e cs rest st stP hpre ih =>
    exact absurd (by rw [hpre] : (walkToExprPre tgt e st).2 =
      PreAction.skipChildren) (walkToExprPre_ne_skip tgt e st)
  | case7 e cs rest st stP hpre =>
    have heq : walkForest tgt (ASTNode.expr e cs :: rest) st = (stP, true) := by
      simp only [walkForest, hpre]
    have hstop := walkToExprPre_stop_state tgt e st (by rw [hpre])
    rw [hpre] at hstop
    have hm := (walkToExprPre_stop_iff tgt e st).mp (by rw [hpre])
    constructor
    · intro h
      rw [heq] at h
      exact absurd h (by simp)
    · intro _
      rw [heq]
      obtain ⟨⟨dc, hdc⟩, hcnt⟩ := hstop
      refine ⟨hcnt, Or.inr ⟨e, ?_, hm, dc, hdc⟩⟩
      simp [forestExprs]
  | case8 e cs rest st stP hpre stC hcs ihc =>
    have heq : walkForest tgt (ASTNode.expr e cs :: rest) st = (stC, true) := by
      simp only [walkForest, hpre, hcs]
    have hns : (walkToExprPre tgt e st).2 ≠ PreAction.stop := by
      rw [hpre]
      intro hh
      exact PreAction.noConfusion hh
    have hpren := walkToExprPre_not_stop_state tgt e st hns
    rw [hpre] at hpren
    have hp2 : stP.result = st.result := hpren.1
    have hp3 : stP.setCount = st.setCount := hpren.2.1
    obtain ⟨hcnt, hsound⟩ := ihc.2 (by rw [hcs])
    rw [hcs] at hcnt hsound
    have hc3 : stC.setCount = stP.setCount + 1 := hcnt
    constructor
    · intro h
      rw [heq] at h
      exact absurd h (by simp)
    · intro _
      rw [heq]
      constructor
      · show stC.setCount = st.setCount + 1
        rw [hc3, hp3]
      · rcases hsound with ⟨d0, hd0, hm0, hr0⟩ | ⟨e0, he0, hm0, hr0⟩
        · refine Or.inl ⟨d0, ?_, hm0, hr0⟩
          simp only [forestDecls, List.mem_append]
          exact Or.inl hd0
        · refine Or.inr ⟨e0, ?_, hm0, hr0⟩
          simp only [forestExprs, List.mem_cons, List.mem_append]
          exact Or.inr (Or.inl he0)
  | case9 e cs rest st stP hpre stC hcs ihc ihr =>
    have heq : walkForest tgt (ASTNode.expr e cs :: rest) st =
        walkForest tgt rest (walkToExprPost e stC) := by
      simp only [walkForest, hpre, hcs]
    have hns : (walkToExprPre tgt e st).2 ≠ PreAction.stop := by
      rw [hpre]
      intro hh
      exact PreAction.noConfusion hh
    have hpren := walkToExprPre_not_stop_state tgt e st hns
    rw [hpre] at hpren
    have hp1 : stP.stack =
        (if e.kind = ExprKind.closure then DCtx.closureCtx e.exprId :: st.stack
          else st.stack) := hpren.2.2
    have hp2 : stP.result = st.result := hpren.1
    have hp3 : stP.setCount = st.setCount := hpren.2.1
    obtain ⟨hc1, hc2, hc3⟩ := by
      have h0 := ihc.1 (by rw [hcs])
      rw [hcs] at h0
      exact h0
    have hq1 : stC.stack = stP.stack := hc1
    have hq2 : stC.result = stP.result := hc2
    have hq3 : stC.setCount = stP.setCount := hc3
    have hpost := walkToExprPost_state e stC
    have hw1 : (walkToExprPost e stC).result = stC.result := hpost.1
    have hw2 : (walkToExprPost e stC).setCount = stC.setCount := hpost.2.1
    have hw3 : (walkToExprPost e stC).stack =
        (if e.kind = ExprKind.closure then stC.stack.tail else stC.stack) :=
      hpost.2.2
    constructor
    · intro h
      rw [heq] at h ⊢
      obtain ⟨hr1, hr2, hr3⟩ := ihr.1 h
      refine ⟨?_, ?_, ?_⟩
      · rw [hr1, hw3, hq1, hp1]
        by_cases hk : e.kind = ExprKind.closure
        · simp [hk]
        · simp [hk]
      · rw [hr2, hw1, hq2, hp2]
      · rw [hr3, hw2, hq3, hp3]
    · intro h
      rw [heq] at h ⊢
      obtain ⟨hcnt, hsound⟩ := ihr.2 h
      constructor
      · rw [hcnt, hw2, hq3, hp3]
      · rcases hsound with ⟨d0, hd0, hm0, hr0⟩ | ⟨e0, he0, hm0, hr0⟩
        · refine Or.inl ⟨d0, ?_, hm0, hr0⟩
          simp only [forestDecls, List.mem_append]
          exact Or.inr hd0
        · refine Or.inr ⟨e0, ?_, hm0, hr0⟩
          simp only [forestExprs, List.mem_cons, List.mem_append]
          exact Or.inr (Or.inr he0)
  | case10 s cs rest st stC hcs ihc =>
    have heq : walkForest tgt (ASTNode.stmt s cs :: rest) st = (stC, true) := by
      simp only [walkForest, hcs]
    have hpres := walkToStmtPre_state s st
    have hp2 : (walkToStmtPre s st).result = st.result := hpres.1
    have hp3 : (walkToStmtPre s st).setCount = st.setCount := hpres.2.1
    obtain ⟨hcnt, hsound⟩ := ihc.2 (by rw [hcs])
    rw [hcs] at hcnt hsound
    have hc3 : stC.setCount = (walkToStmtPre s st).setCount + 1 := hcnt
    constructor
    · intro h
      rw [heq] at h
      exact absurd h (by simp)
    · intro _
      rw [heq]
      constructor
      · show stC.setCount = st.setCount + 1
        rw [hc3, hp3]
      · rcases hsound with ⟨d0, hd0, hm0, hr0⟩ | ⟨e0, he0, hm0, hr0⟩
        · refine Or.inl ⟨d0, ?_, hm0, hr0⟩
          simp only [forestDecls, List.mem_append]
          exact Or.inl hd0
        · refine Or.inr ⟨e0, ?_, hm0, hr0⟩
          simp only [forestExprs, List.mem_append]
          exact Or.inl he0
  | case11 s cs rest st stC hcs ihc ihr =>
    have heq : walkForest tgt (ASTNode.stmt s cs :: rest) st =
        walkForest tgt rest stC := by
      simp only [walkForest, hcs]
    have hpres := walkToStmtPre_state s st
    have hp1 : (walkToStmtPre s st).stack = st.stack := hpres.2.2
    have hp2 : (walkToStmtPre s st).result = st.result := hpres.1
    have hp3 : (walkToStmtPre s st).setCount = st.setCount := hpres.2.1
    obtain ⟨hc1, hc2, hc3⟩ := by
      have h0 := ihc.1 (by rw [hcs])
      rw [hcs] at h0
      exact h0
    have hq1 : stC.stack = (walkToStmtPre s st).stack := hc1
    have hq2 : stC.result = (walkToStmtPre s st).result := hc2
    have hq3 : stC.setCount = (walkToStmtPre s st).setCount := hc3
    constructor
    · intro h
      rw [heq] at h ⊢
      obtain ⟨hr1, hr2, hr3⟩ := ihr.1 h
      refine ⟨?_, ?_, ?_⟩
      · rw [hr1, hq1, hp1]
      · rw [hr2, hq2, hp2]
      · rw [hr3, hq3, hp3]
    · intro h
      rw [heq] at h ⊢
      obtain ⟨hcnt, hsound⟩ := ihr.2 h
      constructor
      · rw [hcnt, hq3, hp3]
      · rcases hsound with ⟨d0, hd0, hm0, hr0⟩ | ⟨e0, he0, hm0, hr0⟩
        · refine Or.inl ⟨d0, ?_, hm0, hr0⟩
          simp only [forestDecls, List.mem_append]
          exact Or.inr hd0
        · refine Or.inr ⟨e0, ?_, hm0, hr0⟩
          simp only [forestExprs, List.mem_append]
          exact Or.inr he0

theorem walkForest_stops_of_match (tgt : Nat) (f : List ASTNode)
    (st : WalkState) :
    (∀ d ∈ forestDecls f, rangeContainsLocToResolve d tgt = true) →
    ((∃ d ∈ forestDecls f, declMatchesTarget tgt d) ∨
      (∃ e ∈ forestExprs f, exprMatchesTarget tgt e)) →
    (walkForest tgt f st).2 = true := by
  induction f, st using walkForest.induct tgt with
  | case1 st =>
    intro _ hm
    simp [forestDecls, forestExprs] at hm
  | case2 d cs rest st stP hpre ih =>
    intro hR _
    have hskip : rangeContainsLocToResolve d tgt = false :=
      (walkToDeclPre_skip_iff tgt d st).mp (by rw [hpre])
    have hin : rangeContainsLocToResolve d tgt = true :=
      hR d (by simp [forestDecls])
    rw [hin] at hskip
    exact Bool.noConfusion hskip
  | case3 d cs rest st stP hpre =>
    intro _ _
    simp [walkForest, hpre]
  | case4 d cs rest st stP hpre stC hcs ihc =>
    intro _ _
    simp [walkForest, hpre, hcs]
  | case5 d cs rest st stP hpre stC hcs ihc ihr =>
    intro hR hm
    have heq : walkForest tgt (ASTNode.decl d cs :: rest) st =
        walkForest tgt rest (walkToDeclPost d stC) := by
      simp only [walkForest, hpre, hcs]
    rw [heq]
    have hRcs : ∀ d1 ∈ forestDecls cs,
        rangeContainsLocToResolve d1 tgt = true := by
      intro d1 hd1
      refine hR d1 ?_
      simp only [forestDecls, List.mem_cons, List.mem_append]
      exact Or.inr (Or.inl hd1)
    have hRrest : ∀ d1 ∈ forestDecls rest,
        rangeContainsLocToResolve d1 tgt = true := by
      intro d1 hd1
      refine hR d1 ?_
      simp only [forestDecls, List.mem_cons, List.mem_append]
      exact Or.inr (Or.inr hd1)
    have hneq : ¬ declMatchesTarget tgt d := by
      intro hmd
      have hstop : (walkToDeclPre tgt d st).2 = PreAction.stop := by
        rw [walkToDeclPre_stop_iff]
        exact ⟨hR d (by simp [forestDecls]), hmd.1, hmd.2.1, hmd.2.2.1,
          hmd.2.2.2⟩
      rw [hpre] at hstop
      exact PreAction.noConfusion hstop
    have hnotcs : ∀ P, (walkForest tgt cs stP).2 = true → P := by
      intro P hP
      rw [hcs] at hP
      exact absurd hP (by simp)
    rcases hm with ⟨d0, hd0, hm0⟩ | ⟨e0, he0, hm0⟩
    · simp only [forestDecls, List.mem_cons, List.mem_append] at hd0
      rcases hd0 with hd0 | hd0 | hd0
      · subst hd0
        exact absurd hm0 hneq
      · exact hnotcs _ (ihc hRcs (Or.inl ⟨d0, hd0, hm0⟩))
      · exact ihr hRrest (Or.inl ⟨d0, hd0, hm0⟩)
    · simp only [forestExprs, List.mem_append] at he0
      rcases he0 with he0 | he0
      · exact hnotcs _ (ihc hRcs (Or.inr ⟨e0, he0, hm0⟩))
      · exact ihr hRrest (Or.inr ⟨e0, he0, hm0⟩)
  | case6 e cs rest st stP hpre ih =>
    intro _ _
    exact absurd (by rw [hpre] : (walkToExprPre tgt e st).2 =
      PreAction.skipChildren) (walkToExprPre_ne_skip tgt e st)
  | case7 e cs rest st stP hpre =>
    intro _ _
    simp [walkForest, hpre]
  | case8 e cs rest st stP hpre stC hcs ihc =>
    intro _ _
    simp [walkForest, hpre, hcs]
  | case9 e cs rest st stP hpre stC hcs ihc ihr =>
    intro hR hm
    have heq : walkForest tgt (ASTNode.expr e cs :: rest) st =
        walkForest tgt rest (walkToExprPost e stC) := by
      simp only [walkForest, hpre, hcs]
    rw [heq]
    have hRcs : ∀ d1 ∈ forestDecls cs,
        rangeContainsLocToResolve d1 tgt = true := by
      intro d1 hd1
      refine hR d1 ?_
      simp only [forestDecls, List.mem_append]
      exact Or.inl hd1
    have hRrest : ∀ d1 ∈ forestDecls rest,
        rangeContainsLocToResolve d1 tgt = true := by
      intro d1 hd1
      refine hR d1 ?_
      simp only [forestDecls, List.mem_append]
      exact Or.inr hd1
    have hneq : ¬ exprMatchesTarget tgt e := by
      intro hme
      have hstop : (walkToExprPre tgt e st).2 = PreAction.stop :=
        (walkToExprPre_stop_iff tgt e st).mpr hme
      rw [hpre] at hstop
      exact PreAction.noConfusion hstop
    have hnotcs : ∀ P, (walkForest tgt cs stP).2 = true → P := by
      intro P hP
      rw [hcs] at hP
      exact absurd hP (by simp)
    rcases hm with ⟨d0, hd0, hm0⟩ | ⟨e0, he0, hm0⟩
    · simp only [forestDecls, List.mem_append] at hd0
      rcases hd0 with hd0 | hd0
      · exact hnotcs _ (ihc hRcs (Or.inl ⟨d0, hd0, hm0⟩))
      · exact ihr hRrest (Or.inl ⟨d0, hd0, hm0⟩)
    · simp only [forestExprs, List.mem_cons, List.mem_append] at he0
      rcases he0 with he0 | he0 | he0
      · subst he0
        exact absurd hm0 hneq
      · exact hnotcs _ (ihc hRcs (Or.inr ⟨e0, he0, hm0⟩))
      · exact ihr hRrest (Or.inr ⟨e0, he0, hm0⟩)
  | case10 s cs rest st stC hcs ihc =>
    intro _ _
    simp [walkForest, hcs]
  | case11 s cs rest st stC hcs ihc ihr =>
    intro hR hm
    have heq : walkForest tgt (ASTNode.stmt s cs :: rest) st =
        walkForest tgt rest stC := by
      simp only [walkForest, hcs]
    rw [heq]
    have hRcs : ∀ d1 ∈ forestDecls cs,
        rangeContainsLocToResolve d1 tgt = true := by
      intro d1 hd1
      refine hR d1 ?_
      simp only [forestDecls, List.mem_append]
      exact Or.inl hd1
    have hRrest : ∀ d1 ∈ forestDecls rest,
        rangeContainsLocToResolve d1 tgt = true := by
      intro d1 hd1
      refine hR d1 ?_
      simp only [forestDecls, List.mem_append]
      exact Or.inr hd1
    have hnotcs : ∀ P, (walkForest tgt cs (walkToStmtPre s st)).2 = true → P := by
      intro P hP
      rw [hcs] at hP
      exact absurd hP (by simp)
    rcases hm with ⟨d0, hd0, hm0⟩ | ⟨e0, he0, hm0⟩
    · simp only [forestDecls, List.mem_append] at hd0
      rcases hd0 with hd0 | hd0
      · exact hnotcs _ (ihc hRcs (Or.inl ⟨d0, hd0, hm0⟩))
      · exact ihr hRrest (Or.inl ⟨d0, hd0, hm0⟩)
    · simp only [forestExprs, List.mem_append] at he0
      rcases he0 with he0 | he0
      · exact hnotcs _ (ihc hRcs (Or.inr ⟨e0, he0, hm0⟩))
      · exact ihr hRrest (Or.inr ⟨e0, he0, hm0⟩)

-- MARK: Claim C4

/-- Claim C4: a declaration is matched by the locator exactly when its
name-introducing location equals the target position, it carries a name,
and it is not a parameter; a parameter whose location equals the target
position is not matched and the walk continues. (Stated for a declaration
whose source range contains the target — a declaration outside that range
is skipped together with its subtree — and under the model
well-formedness condition that only value declarations carry names, which
holds by construction in the source, where `hasName` is a `ValueDecl`
member.) -/
theorem walkToDeclPre_match_rule (tgt : Nat) (d : DeclInfo) (st : WalkState)
    (hname : d.hasName = true → d.isValueDecl = true)
    (hrange : rangeContainsLocToResolve d tgt = true) :
    ((walkToDeclPre tgt d st).2 = PreAction.stop ↔
      (d.loc = tgt ∧ d.hasName = true ∧ d.isParamDecl = false)) ∧
    (d.isParamDecl = true →
      (walkToDeclPre tgt d st).2 = PreAction.cont) := by
  constructor
  · rw [walkToDeclPre_stop_iff]
    constructor
    · rintro ⟨-, h1, -, h3, h4⟩
      exact ⟨h1, h3, h4⟩
    · rintro ⟨h1, h3, h4⟩
      exact ⟨hrange, h1, hname h3, h3, h4⟩
  · intro hp
    have hns : (walkToDeclPre tgt d st).2 ≠ PreAction.stop := by
      intro hstop
      rw [walkToDeclPre_stop_iff] at hstop
      obtain ⟨-, -, -, -, h4⟩ := hstop
      rw [hp] at h4
      exact Bool.noConfusion h4
    have hnk : (walkToDeclPre tgt d st).2 ≠ PreAction.skipChildren := by
      intro hk
      rw [walkToDeclPre_skip_iff] at hk
      rw [hrange] at hk
      exact Bool.noConfusion hk
    cases hact : (walkToDeclPre tgt d st).2
    · exact absurd hact hnk
    · rfl
    · exact absurd hact hns

/-- Witness for claim C4, at a parameter declaration sitting at the
target position: not matched, the walk continues; and the match rule
itself at that declaration. -/
theorem walkToDeclPre_match_rule_witness :
    ((walkToDeclPre 5 { sampleNamedDecl with isParamDecl := true }
        initialWalkState).2 = PreAction.stop ↔
      ({ sampleNamedDecl with isParamDecl := true }.loc = 5 ∧
        { sampleNamedDecl with isParamDecl := true }.hasName = true ∧
        { sampleNamedDecl with isParamDecl := true }.isParamDecl = false)) ∧
    ({ sampleNamedDecl with isParamDecl := true }.isParamDecl = true →
      (walkToDeclPre 5 { sampleNamedDecl with isParamDecl := true }
        initialWalkState).2 = PreAction.cont) :=
  walkToDeclPre_match_rule 5 { sampleNamedDecl with isParamDecl := true }
    initialWalkState (by decide) (by decide)

-- MARK: Claim C5

/-- Claim C5: an expression is matched by the locator exactly when its
anchor location equals the target position and its kind is one of
identifier reference (`DeclRef`), unresolved member access
(`UnresolvedDot`), or unresolved-name reference (`UnresolvedDeclRef`);
for every other expression kind (or location) the walk continues —
expressions are never skipped. -/
theorem walkToExprPre_match_rule (tgt : Nat) (e : ExprInfo)
    (st : WalkState) :
    ((walkToExprPre tgt e st).2 = PreAction.stop ↔
      (e.loc = tgt ∧ (e.kind = ExprKind.declRef ∨
        e.kind = ExprKind.unresolvedDot ∨
        e.kind = ExprKind.unresolvedDeclRef))) ∧
    ((walkToExprPre tgt e st).2 ≠ PreAction.stop →
      (walkToExprPre tgt e st).2 = PreAction.cont) := by
  refine ⟨walkToExprPre_stop_iff tgt e st, fun hns => ?_⟩
  cases hact : (walkToExprPre tgt e st).2
  · exact absurd hact (walkToExprPre_ne_skip tgt e st)
  · rfl
  · exact absurd hact hns

/-- Witness for claim C5, at a closure expression at the target position:
its kind is not directly reportable, so the walk continues. -/
theorem walkToExprPre_match_rule_witness :
    (((walkToExprPre 0 closureExprAtZero initialWalkState).2 =
        PreAction.stop ↔
      (closureExprAtZero.loc = 0 ∧
        (closureExprAtZero.kind = ExprKind.declRef ∨
          closureExprAtZero.kind = ExprKind.unresolvedDot ∨
          closureExprAtZero.kind = ExprKind.unresolvedDeclRef))) ∧
    ((walkToExprPre 0 closureExprAtZero initialWalkState).2 ≠
        PreAction.stop →
      (walkToExprPre 0 closureExprAtZero initialWalkState).2 =
        PreAction.cont)) :=
  walkToExprPre_match_rule 0 closureExprAtZero initialWalkState

-- MARK: Claim C8

/-- Claim C8: for every accepted resolved reference, the receiver type
set computed by the source (try the nominal of the base type, else look
through a metatype and try the nominal of its instance type) equals the
set described by the specification (unwrap a metatype to its instance
type if the base type is a metatype, then take the nominal type of the
possibly unwrapped base type); when no nominal type is obtainable, or the
reference is not dynamic, or there is no base type, both sides are empty
rather than an error. -/
theorem deriveReceiverTypes_eq_spec :
    ∀ (isDyn : Bool) (baseTy : Option Ty),
      deriveReceiverTypes isDyn baseTy = receiverTypesSpec isDyn baseTy := by
  intro isDyn baseTy
  cases isDyn
  · rfl
  · cases baseTy with
    | none => rfl
    | some bt => cases bt <;> rfl

-- MARK: Claim C1

/-- Claim C1: if the solver produces more than one distinct resolved
reference for the target expression (here: two collected references to
two different declarations), `getExprResult` declines to answer and
returns the null result rather than either candidate. -/
theorem getExprResult_ambiguous_none (shadowMap : List (Nat × Nat))
    (sols : List Solution) (r1 r2 : CursorInfoDeclReference)
    (h1 : r1 ∈ collectResults sols) (h2 : r2 ∈ collectResults sols)
    (hne : r1.referencedDecl ≠ r2.referencedDecl) :
    getExprResult shadowMap sols = none := by
  have hlen : ¬ (collectResults sols).length = 1 := by
    intro hl
    obtain ⟨a, ha⟩ := List.length_eq_one.mp hl
    rw [ha] at h1 h2
    simp only [List.mem_singleton] at h1 h2
    rw [h1, h2] at hne
    exact hne rfl
  unfold getExprResult
  by_cases he : (collectResults sols).isEmpty
  · simp [he]
  · simp [he, hlen]

/-- Witness for claim C1: two solutions resolving the target expression
to declarations 1 and 2 yield a null result. -/
theorem getExprResult_ambiguous_none_witness :
    getExprResult [] [solutionToDecl 1, solutionToDecl 2] = none :=
  getExprResult_ambiguous_none [] [solutionToDecl 1, solutionToDecl 2]
    { baseType := none, isDynamicRef := false, referencedDecl := 1 }
    { baseType := none, isDynamicRef := false, referencedDecl := 2 }
    (by decide) (by decide) (by decide)

-- MARK: Claim C7

/-- Claim C7: all expected nothing-found conditions yield a no-answer
outcome and never a fault: a solution whose overload could not be
resolved is skipped and contributes no reference; zero collected
references yield a null expression result; a missing source file and a
walk that finds no node both end the query without invoking the
consumer. -/
theorem noAnswer_conditions :
    (∀ s : Solution, s.overloadValue = none → sawSolution s = none) ∧
    (∀ (shadowMap : List (Nat × Nat)) (sols : List Solution),
      collectResults sols = [] → getExprResult shadowMap sols = none) ∧
    (∀ (tgt : Nat) (solver : Nat → List Solution),
      doneParsing none tgt solver = ConsumerEvent.notInvoked) ∧
    (∀ (f : List ASTNode) (tgt : Nat) (solver : Nat → List Solution),
      (nodeFinderResolve tgt f).result = none →
      doneParsing (some f) tgt solver = ConsumerEvent.notInvoked) := by
  refine ⟨fun s hs => ?_, fun shadowMap sols hz => ?_, fun tgt solver => rfl,
    fun f tgt solver hn => ?_⟩
  · unfold sawSolution
    rw [hs]
  · unfold getExprResult
    simp [hz]
  · simp [doneParsing, hn]

/-- Witness for claim C7: a no-overload solution contributes nothing; a
solution list that contributes nothing yields a null result; a missing
source file and an empty source file both leave the consumer
uninvoked. -/
theorem noAnswer_conditions_witness :
    sawSolution noOverloadSolution = none ∧
    getExprResult [] [noOverloadSolution] = none ∧
    doneParsing none 5 (fun _ => []) = ConsumerEvent.notInvoked ∧
    doneParsing (some []) 5 (fun _ => []) = ConsumerEvent.notInvoked :=
  ⟨noAnswer_conditions.1 noOverloadSolution rfl,
   noAnswer_conditions.2.1 [] [noOverloadSolution] (by decide),
   noAnswer_conditions.2.2.1 5 (fun _ => []),
   noAnswer_conditions.2.2.2 [] 5 (fun _ => [])
     (by simp [nodeFinderResolve, walkForest, initialWalkState])⟩

-- MARK: Claim C2

/-- Claim C2 counterexample: the scope-stack discipline does not restore
the stack on early termination. At target position 7 on a file consisting
of a closure whose body holds a declaration reference at 7, the walk stops
at the reference while the closure context is still pushed: the walk was
stopped, yet the final stack has depth 2 while the pre-call stack has
depth 1. -/
theorem scopeStack_unbalanced_on_early_stop :
    (walkForest 7 closureMatchForest initialWalkState).2 = true ∧
    (nodeFinderResolve 7 closureMatchForest).stack.length = 2 ∧
    initialWalkState.stack.length = 1 := by
  refine ⟨?_, ?_, rfl⟩ <;>
    simp [nodeFinderResolve, closureMatchForest, walkForest, walkToExprPre,
      walkToExprPost, recordShadows, setResult, initialWalkState]

/-- Claim C2 (amended): each push of a context onto the scope stack is
matched by exactly one pop when the walk leaves that context normally, so
a walk that returns without having found a match restores the stack to
its pre-call value; when a match is found partway through, the walk stops
immediately and the contexts enclosing the match remain on the stack. -/
theorem walkForest_stack_balanced_when_no_match (tgt : Nat)
    (f : List ASTNode) (st : WalkState)
    (h : (walkForest tgt f st).2 = false) :
    (walkForest tgt f st).1.stack = st.stack :=
  ((walkForest_invariant tgt f st).1 h).1

/-- Witness for amended claim C2: the same file as the counterexample,
queried at position 9 where nothing matches: the walk is not stopped and
the stack returns to its pre-call value. -/
theorem walkForest_stack_balanced_when_no_match_witness :
    (walkForest 9 closureMatchForest initialWalkState).2 = false ∧
    (walkForest 9 closureMatchForest initialWalkState).1.stack =
      initialWalkState.stack :=
  ⟨by simp [closureMatchForest, walkForest, walkToExprPre, walkToExprPost,
      recordShadows, setResult, initialWalkState],
   walkForest_stack_balanced_when_no_match 9 closureMatchForest
     initialWalkState
     (by simp [closureMatchForest, walkForest, walkToExprPre, walkToExprPost,
       recordShadows, setResult, initialWalkState])⟩

-- MARK: Claim C3

/-- Claim C3: for any tree and target position the locator produces at
most one non-null result per query (the result slot is assigned at most
once, because the walk stops at the first match); and when the position
lies within exactly one name-introducing declaration (no expression
anchors there, every declaration range contains the position so nothing
is skipped, and every matching declaration is that one), that declaration
is returned, not an enclosing expression. -/
theorem locator_single_match :
    (∀ (tgt : Nat) (f : List ASTNode),
      (nodeFinderResolve tgt f).setCount ≤ 1) ∧
    (∀ (tgt : Nat) (f : List ASTNode) (D : DeclInfo),
      (∀ d ∈ forestDecls f, rangeContainsLocToResolve d tgt = true) →
      (∀ e ∈ forestExprs f, ¬ exprMatchesTarget tgt e) →
      D ∈ forestDecls f → declMatchesTarget tgt D →
      (∀ d ∈ forestDecls f, declMatchesTarget tgt d → d.declId = D.declId) →
      (nodeFinderResolve tgt f).result = some (NFResult.declRes D.declId)) := by
  constructor
  · intro tgt f
    unfold nodeFinderResolve
    cases hb : (walkForest tgt f initialWalkState).2
    · have hpres := (walkForest_invariant tgt f initialWalkState).1 hb
      rw [hpres.2.2]
      simp [initialWalkState]
    · have hcnt := ((walkForest_invariant tgt f initialWalkState).2 hb).1
      rw [hcnt]
      simp [initialWalkState]
  · intro tgt f D hRange hNoExpr hD hDm hOnly
    have habort := walkForest_stops_of_match tgt f initialWalkState hRange
      (Or.inl ⟨D, hD, hDm⟩)
    obtain ⟨-, hsound⟩ :=
      (walkForest_invariant tgt f initialWalkState).2 habort
    unfold nodeFinderResolve
    rcases hsound with ⟨d0, hd0, hm0, hr0⟩ | ⟨e0, he0, hm0, hr0⟩
    · rw [hr0, hOnly d0 hd0 hm0]
    · exact absurd hm0 (hNoExpr e0 he0)

/-- Witness for claim C3: a file with a single named declaration at
position 5, queried at 5: at most one result is produced and the
declaration itself is returned. -/
theorem locator_single_match_witness :
    (nodeFinderResolve 5 singleDeclForest).setCount ≤ 1 ∧
    (nodeFinderResolve 5 singleDeclForest).result =
      some (NFResult.declRes sampleNamedDecl.declId) :=
  ⟨locator_single_match.1 5 singleDeclForest,
   locator_single_match.2 5 singleDeclForest sampleNamedDecl
     (by simp [singleDeclForest, forestDecls, sampleNamedDecl,
       rangeContainsLocToResolve])
     (by simp [singleDeclForest, forestExprs, forestDecls])
     (by simp [singleDeclForest, forestDecls])
     (by simp [declMatchesTarget, sampleNamedDecl])
     (by simp [singleDeclForest, forestDecls])⟩

-- MARK: Claim C10

theorem getExprResult_of_length_ne_one (shadowMap : List (Nat × Nat))
    (sols : List Solution) (h : (collectResults sols).length ≠ 1) :
    getExprResult shadowMap sols = none := by
  unfold getExprResult
  by_cases he : (collectResults sols).isEmpty
  · simp [he]
  · simp [he, h]

/-- Claim C10: the two no-answer cases are distinguishable at the
external interface: when the source file is absent, or the locator finds
no node at the position, the consumer is never invoked at all; whereas
when a located expression yields zero or two-or-more collected
references, `handleResults` is invoked with a null cursor-info result. -/
theorem doneParsing_distinguishes_noAnswer :
    (∀ (tgt : Nat) (solver : Nat → List Solution),
      doneParsing none tgt solver = ConsumerEvent.notInvoked) ∧
    (∀ (f : List ASTNode) (tgt : Nat) (solver : Nat → List Solution),
      (nodeFinderResolve tgt f).result = none →
      doneParsing (some f) tgt solver = ConsumerEvent.notInvoked) ∧
    (∀ (f : List ASTNode) (tgt : Nat) (solver : Nat → List Solution)
        (e : Nat) (dc : DCtx),
      (nodeFinderResolve tgt f).result = some (NFResult.exprRes e dc) →
      (collectResults (solver e) = [] ∨
        2 ≤ (collectResults (solver e)).length) →
      doneParsing (some f) tgt solver = ConsumerEvent.invoked none) := by
  refine ⟨fun tgt solver => rfl, fun f tgt solver hn => ?_,
    fun f tgt solver e dc hres hlen => ?_⟩
  · simp [doneParsing, hn]
  · have hnone : getExprResult (nodeFinderResolve tgt f).shadowMap
        (solver e) = none := by
      apply getExprResult_of_length_ne_one
      rcases hlen with hz | hge
      · rw [hz]
        simp
      · omega
    simp [doneParsing, hres, hnone]

/-- Witness for claim C10: with no source file the consumer is not
invoked; at position 9 on the closure file nothing is located and the
consumer is not invoked; at position 4 on the reference file an
expression is located, the solver yields nothing, and the consumer is
invoked with a null result. -/
theorem doneParsing_distinguishes_noAnswer_witness :
    doneParsing none 4 (fun _ => []) = ConsumerEvent.notInvoked ∧
    doneParsing (some closureMatchForest) 9 (fun _ => []) =
      ConsumerEvent.notInvoked ∧
    doneParsing (some exprOnlyForest) 4 (fun _ => []) =
      ConsumerEvent.invoked none :=
  ⟨doneParsing_distinguishes_noAnswer.1 4 (fun _ => []),
   doneParsing_distinguishes_noAnswer.2.1 closureMatchForest 9 (fun _ => [])
     (by simp [nodeFinderResolve, closureMatchForest, walkForest,
       walkToExprPre, walkToExprPost, recordShadows, setResult,
       initialWalkState]),
   doneParsing_distinguishes_noAnswer.2.2 exprOnlyForest 4 (fun _ => [])
     3 DCtx.file
     (by simp [nodeFinderResolve, exprOnlyForest, unresolvedRefExpr,
       walkForest, walkToExprPre, walkToExprPost, recordShadows, setResult,
       initialWalkState])
     (Or.inl rfl)⟩

-- MARK: Claim C9

theorem isSome_of_not_isNone {α : Type} {x : Option α}
    (h : ¬ x.isNone = true) : x.isSome = true := by
  cases x
  · simp at h
  · simp

theorem not_isNone_of_isSome {α : Type} {x : Option α}
    (h : x.isSome = true) : ¬ x.isNone = true := by
  cases x
  · simp at h
  · simp

theorem mem_forceOnce_self (id : Nat) (l : List Nat) :
    id ∈ forceOnce id l := by
  unfold forceOnce
  split
  · assumption
  · exact List.mem_cons_self id l

theorem forceOnce_of_mem (id : Nat) (l : List Nat) (h : id ∈ l) :
    forceOnce id l = l := by
  unfold forceOnce
  rw [if_pos h]

theorem lookupTy_applyCheck_of_ne (o : Nat → Option Ty) (id c : Nat)
    (tys : List (Nat × Ty)) (hne : c ≠ id) :
    lookupTy (applyCheck o id tys) c = lookupTy tys c := by
  unfold applyCheck
  cases o id with
  | none => rfl
  | some t =>
    unfold lookupTy
    rw [List.find?_cons_of_neg]
    simp only [beq_iff_eq]
    exact fun h => hne h.symm

theorem lookupTy_applyCheck_self (o : Nat → Option Ty) (id : Nat)
    (tys : List (Nat × Ty)) (h : (o id).isSome) :
    (lookupTy (applyCheck o id tys) id).isSome := by
  unfold applyCheck
  cases ho : o id with
  | none =>
    rw [ho] at h
    exact absurd h (by simp)
  | some t =>
    unfold lookupTy
    rw [List.find?_cons_of_pos]
    · simp
    · simp

theorem tcParentClosures_fields (o : Nat → Option Ty) (chain : List DCEntry)
    (s : TCState) :
    (tcParentClosures o chain s).1.interfaceTypes = s.interfaceTypes ∧
    (tcParentClosures o chain s).1.wrapperForced = s.wrapperForced ∧
    (tcParentClosures o chain s).1.accessorsEmitted = s.accessorsEmitted := by
  induction chain generalizing s with
  | nil => simp [tcParentClosures]
  | cons dc rest ih =>
    cases rest with
    | nil => simp [tcParentClosures]
    | cons b t =>
      cases dc with
      | closure cid =>
        by_cases hc : (lookupTy s.closureTypes cid).isNone
        · simpa [tcParentClosures, hc] using
            ih { s with closureTypes := applyCheck o cid s.closureTypes }
        · simpa [tcParentClosures, hc] using ih s
      | otherCtx cid =>
        simpa [tcParentClosures] using ih s

theorem tcParentClosures_lookup_mono (o : Nat → Option Ty)
    (chain : List DCEntry) (s : TCState) (c : Nat) (ty : Ty)
    (h : lookupTy s.closureTypes c = some ty) :
    lookupTy (tcParentClosures o chain s).1.closureTypes c = some ty := by
  induction chain generalizing s with
  | nil => simpa [tcParentClosures] using h
  | cons dc rest ih =>
    cases rest with
    | nil => simpa [tcParentClosures] using h
    | cons b t =>
      cases dc with
      | closure cid =>
        by_cases hc : (lookupTy s.closureTypes cid).isNone
        · have hne : c ≠ cid := by
            intro hcc
            subst hcc
            rw [h] at hc
            exact absurd hc (by simp)
          have h2 : lookupTy (applyCheck o cid s.closureTypes) c = some ty := by
            rw [lookupTy_applyCheck_of_ne o cid c s.closureTypes hne]
            exact h
          simpa [tcParentClosures, hc] using
            ih { s with closureTypes := applyCheck o cid s.closureTypes } h2
        · simpa [tcParentClosures, hc] using ih s h
      | otherCtx cid =>
        simpa [tcParentClosures] using ih s h

theorem tcParentClosures_establishes (o : Nat → Option Ty)
    (chain : List DCEntry) (s : TCState)
    (hsucc : ∀ cid ∈ interiorClosures chain, (o cid).isSome) :
    ∀ cid ∈ interiorClosures chain,
      (lookupTy (tcParentClosures o chain s).1.closureTypes cid).isSome := by
  induction chain generalizing s with
  | nil =>
    intro cid hcid
    simp [interiorClosures] at hcid
  | cons dc rest ih =>
    cases rest with
    | nil =>
      intro cid hcid
      simp [interiorClosures] at hcid
    | cons b t =>
      cases dc with
      | closure cid0 =>
        intro cid hcid
        simp only [interiorClosures, List.mem_cons] at hcid
        by_cases hc : (lookupTy s.closureTypes cid0).isNone
        · rcases hcid with hcid | hcid
          · subst hcid
            have hself : (lookupTy (applyCheck o cid s.closureTypes)
                cid).isSome :=
              lookupTy_applyCheck_self o cid s.closureTypes
                (hsucc cid (by simp [interiorClosures]))
            obtain ⟨ty, hty⟩ := Option.isSome_iff_exists.mp hself
            have hmono := tcParentClosures_lookup_mono o (b :: t)
              { s with closureTypes := applyCheck o cid s.closureTypes }
              cid ty hty
            simp [tcParentClosures, hc, hmono]
          · have := ih { s with closureTypes := applyCheck o cid0 s.closureTypes }
              (fun c hcmem => hsucc c (by
                simp only [interiorClosures, List.mem_cons]
                exact Or.inr hcmem)) cid hcid
            simpa [tcParentClosures, hc] using this
        · rcases hcid with hcid | hcid
          · subst hcid
            have hcs : (lookupTy s.closureTypes cid).isSome :=
              isSome_of_not_isNone hc
            obtain ⟨ty, hty⟩ := Option.isSome_iff_exists.mp hcs
            have hmono := tcParentClosures_lookup_mono o (b :: t) s cid ty hty
            simp [tcParentClosures, hc, hmono]
          · have := ih s (fun c hcmem => hsucc c (by
              simp only [interiorClosures, List.mem_cons]
              exact Or.inr hcmem)) cid hcid
            simpa [tcParentClosures, hc] using this
      | otherCtx cid0 =>
        intro cid hcid
        simp only [interiorClosures] at hcid
        have := ih s (fun c hcmem => hsucc c (by
          simpa [interiorClosures] using hcmem)) cid hcid
        simpa [tcParentClosures] using this

theorem tcParentClosures_noop (o : Nat → Option Ty) (chain : List DCEntry)
    (s : TCState)
    (hall : ∀ cid ∈ interiorClosures chain,
      (lookupTy s.closureTypes cid).isSome) :
    tcParentClosures o chain s = (s, 0) := by
  induction chain with
  | nil => simp [tcParentClosures]
  | cons dc rest ih =>
    cases rest with
    | nil => simp [tcParentClosures]
    | cons b t =>
      cases dc with
      | closure cid =>
        have hsome : (lookupTy s.closureTypes cid).isSome :=
          hall cid (by simp [interiorClosures])
        have hrec := ih (fun c hcmem => hall c (by
          simp only [interiorClosures, List.mem_cons]
          exact Or.inr hcmem))
        have hnn : ¬ (lookupTy s.closureTypes cid).isNone = true :=
          not_isNone_of_isSome hsome
        simp [tcParentClosures, hnn, hrec]
      | otherCtx cid =>
        have hrec := ih (fun c hcmem => hall c (by
          simpa [interiorClosures] using hcmem))
        simp [tcParentClosures, hrec]

theorem typeCheck_closureTypes (oc oi : Nat → Option Ty) (VD : VDecl)
    (s : TCState) :
    (typeCheckDeclAndParentClosures oc oi (some VD) s).1.closureTypes =
      (tcParentClosures oc VD.ctxChain s).1.closureTypes := by
  unfold typeCheckDeclAndParentClosures
  by_cases hin : (lookupTy (tcParentClosures oc VD.ctxChain
      s).1.interfaceTypes VD.vid).isNone <;>
    by_cases hv : VD.isVarDecl = true <;>
      by_cases hw : VD.hasAttachedPropertyWrapper = true <;>
        simp [hin, hv, hw]

theorem typeCheck_interfaceTypes_isSome (oc oi : Nat → Option Ty)
    (VD : VDecl) (s : TCState) (hi : (oi VD.vid).isSome) :
    (lookupTy (typeCheckDeclAndParentClosures oc oi (some VD)
      s).1.interfaceTypes VD.vid).isSome := by
  unfold typeCheckDeclAndParentClosures
  by_cases hin : (lookupTy (tcParentClosures oc VD.ctxChain
      s).1.interfaceTypes VD.vid).isNone
  · by_cases hv : VD.isVarDecl = true <;>
      by_cases hw : VD.hasAttachedPropertyWrapper = true <;>
        simp [hin, hv, hw, lookupTy_applyCheck_self oi VD.vid _ hi]
  · by_cases hv : VD.isVarDecl = true <;>
      by_cases hw : VD.hasAttachedPropertyWrapper = true <;>
        simp [hin, hv, hw, isSome_of_not_isNone hin]

theorem typeCheck_wrapper_mem (oc oi : Nat → Option Ty) (VD : VDecl)
    (s : TCState) (hv : VD.isVarDecl = true)
    (hw : VD.hasAttachedPropertyWrapper = true) :
    VD.vid ∈ (typeCheckDeclAndParentClosures oc oi (some VD)
      s).1.wrapperForced := by
  unfold typeCheckDeclAndParentClosures
  by_cases hin : (lookupTy (tcParentClosures oc VD.ctxChain
      s).1.interfaceTypes VD.vid).isNone <;>
    simp [hin, hv, hw, mem_forceOnce_self]

theorem typeCheck_accessors_mem (oc oi : Nat → Option Ty) (VD : VDecl)
    (s : TCState) (hv : VD.isVarDecl = true) :
    VD.vid ∈ (typeCheckDeclAndParentClosures oc oi (some VD)
      s).1.accessorsEmitted := by
  unfold typeCheckDeclAndParentClosures
  by_cases hin : (lookupTy (tcParentClosures oc VD.ctxChain
      s).1.interfaceTypes VD.vid).isNone <;>
    by_cases hw : VD.hasAttachedPropertyWrapper = true <;>
      simp [hin, hv, hw, mem_forceOnce_self]

theorem typeCheck_first_call_establishes (oc oi : Nat → Option Ty)
    (VD : VDecl) (s : TCState)
    (hc : ∀ cid ∈ interiorClosures VD.ctxChain, (oc cid).isSome)
    (hi : (oi VD.vid).isSome) :
    (∀ cid ∈ interiorClosures VD.ctxChain,
      (lookupTy (typeCheckDeclAndParentClosures oc oi (some VD)
        s).1.closureTypes cid).isSome) ∧
    (lookupTy (typeCheckDeclAndParentClosures oc oi (some VD)
      s).1.interfaceTypes VD.vid).isSome ∧
    (VD.isVarDecl = true →
      (VD.hasAttachedPropertyWrapper = true →
        VD.vid ∈ (typeCheckDeclAndParentClosures oc oi (some VD)
          s).1.wrapperForced) ∧
      VD.vid ∈ (typeCheckDeclAndParentClosures oc oi (some VD)
        s).1.accessorsEmitted) :=
  ⟨fun cid hcid => by
      rw [typeCheck_closureTypes]
      exact tcParentClosures_establishes oc VD.ctxChain s hc cid hcid,
    typeCheck_interfaceTypes_isSome oc oi VD s hi,
    fun hv => ⟨fun hw => typeCheck_wrapper_mem oc oi VD s hv hw,
      typeCheck_accessors_mem oc oi VD s hv⟩⟩

theorem typeCheck_second_call_noop (oc oi : Nat → Option Ty) (VD : VDecl)
    (t : TCState)
    (hc : ∀ cid ∈ interiorClosures VD.ctxChain,
      (lookupTy t.closureTypes cid).isSome)
    (hi : (lookupTy t.interfaceTypes VD.vid).isSome)
    (hw : VD.isVarDecl = true → VD.hasAttachedPropertyWrapper = true →
      VD.vid ∈ t.wrapperForced)
    (ha : VD.isVarDecl = true → VD.vid ∈ t.accessorsEmitted) :
    typeCheckDeclAndParentClosures oc oi (some VD) t = (t, 0) := by
  have hstep := tcParentClosures_noop oc VD.ctxChain t hc
  have hnn : ¬ (lookupTy t.interfaceTypes VD.vid).isNone = true :=
    not_isNone_of_isSome hi
  unfold typeCheckDeclAndParentClosures
  by_cases hv : VD.isVarDecl = true
  · by_cases hww : VD.hasAttachedPropertyWrapper = true
    · simp [hstep, hnn, hv, hww, forceOnce_of_mem VD.vid _ (hw hv hww),
        forceOnce_of_mem VD.vid _ (ha hv)]
    · simp [hstep, hnn, hv, hww, forceOnce_of_mem VD.vid _ (ha hv)]
  · simp [hstep, hnn, hv]

/-- Claim C9: invoking the on-demand type-checker trigger twice on the
same declaration is idempotent: provided the triggered checks succeed in
assigning types (a context that fails to check yields an absent type and
stays outside the guard), the second invocation returns exactly the state
the first produced — hence the same resulting types — and performs zero
further `typeCheckASTNodeAtLoc` invocations, because each triggering step
is guarded by an already-has-type check (closure type non-null, interface
type present). -/
theorem typeCheck_trigger_idempotent (oc oi : Nat → Option Ty) (VD : VDecl)
    (s : TCState)
    (hc : ∀ cid ∈ interiorClosures VD.ctxChain, (oc cid).isSome)
    (hi : (oi VD.vid).isSome) :
    typeCheckDeclAndParentClosures oc oi (some VD)
        (typeCheckDeclAndParentClosures oc oi (some VD) s).1 =
      ((typeCheckDeclAndParentClosures oc oi (some VD) s).1, 0) := by
  obtain ⟨h1, h2, h3⟩ := typeCheck_first_call_establishes oc oi VD s hc hi
  exact typeCheck_second_call_noop oc oi VD _ h1 h2
    (fun hv hww => (h3 hv).1 hww) (fun hv => (h3 hv).2)

/-- Witness for claim C9: the sample declaration (nested in a closure,
carrying a property wrapper) checked from the empty state with oracles
that always succeed: the second invocation is a no-op. -/
theorem typeCheck_trigger_idempotent_witness :
    typeCheckDeclAndParentClosures totalOracle totalOracle (some sampleVDecl)
        (typeCheckDeclAndParentClosures totalOracle totalOracle
          (some sampleVDecl) emptyTCState).1 =
      ((typeCheckDeclAndParentClosures totalOracle totalOracle
          (some sampleVDecl) emptyTCState).1, 0) :=
  typeCheck_trigger_idempotent totalOracle totalOracle sampleVDecl
    emptyTCState (by decide) (by decide)

-- MARK: Claim C6

theorem iterShadow_succ (m : List (Nat × Nat)) (k d : Nat) :
    iterShadow m (k + 1) d =
      match lookupShadow m d with
      | none => none
      | some s => iterShadow m k s := rfl

theorem shadowChainAux_succ (m : List (Nat × Nat)) (fuel d : Nat) :
    shadowChainAux m (fuel + 1) d =
      match lookupShadow m d with
      | none => []
      | some s => s :: shadowChainAux m fuel s := rfl

theorem iterShadow_none (m : List (Nat × Nat)) (k d : Nat)
    (hl : lookupShadow m d = none) : iterShadow m (k + 1) d = none := by
  rw [iterShadow_succ, hl]

theorem iterShadow_cons (m : List (Nat × Nat)) (k d s : Nat)
    (hl : lookupShadow m d = some s) :
    iterShadow m (k + 1) d = iterShadow m k s := by
  rw [iterShadow_succ, hl]

theorem shadowChainAux_none (m : List (Nat × Nat)) (fuel d : Nat)
    (hl : lookupShadow m d = none) : shadowChainAux m (fuel + 1) d = [] := by
  rw [shadowChainAux_succ, hl]

theorem shadowChainAux_cons (m : List (Nat × Nat)) (fuel d s : Nat)
    (hl : lookupShadow m d = some s) :
    shadowChainAux m (fuel + 1) d = s :: shadowChainAux m fuel s := by
  rw [shadowChainAux_succ, hl]

theorem iterShadow_one (m : List (Nat × Nat)) (d : Nat) :
    iterShadow m 1 d = lookupShadow m d := by
  cases hl : lookupShadow m d with
  | none => exact iterShadow_none m 0 d hl
  | some s => exact iterShadow_cons m 0 d s hl

theorem iterShadow_add (m : List (Nat × Nat)) (a b : Nat) :
    ∀ d, iterShadow m (a + b) d =
      match iterShadow m a d with
      | none => none
      | some x => iterShadow m b x := by
  induction a with
  | zero =>
    intro d
    simp [iterShadow]
  | succ a ih =>
    intro d
    have hadd : a + 1 + b = (a + b) + 1 := by omega
    cases hl : lookupShadow m d with
    | none =>
      rw [hadd, iterShadow_none m (a + b) d hl, iterShadow_none m a d hl]
    | some s =>
      rw [hadd, iterShadow_cons m (a + b) d s hl, iterShadow_cons m a d s hl]
      exact ih s

theorem shadowChainAux_getElem (m : List (Nat × Nat)) (fuel : Nat) :
    ∀ (d i : Nat) (h : i < (shadowChainAux m fuel d).length),
      iterShadow m (i + 1) d = some ((shadowChainAux m fuel d)[i]) := by
  induction fuel with
  | zero =>
    intro d i h
    simp [shadowChainAux] at h
  | succ fuel ih =>
    intro d i h
    cases hl : lookupShadow m d with
    | none =>
      rw [shadowChainAux_none m fuel d hl] at h
      simp at h
    | some s =>
      simp only [shadowChainAux_cons m fuel d s hl] at h ⊢
      cases i with
      | zero =>
        simp only [List.getElem_cons_zero, Nat.zero_add]
        rw [iterShadow_one, hl]
      | succ i =>
        simp only [List.getElem_cons_succ]
        rw [iterShadow_cons m (i + 1) d s hl]
        exact ih s i (by rw [List.length_cons] at h; omega)

theorem shadowChainAux_length_le (m : List (Nat × Nat)) (fuel : Nat) :
    ∀ d, (shadowChainAux m fuel d).length ≤ fuel := by
  induction fuel with
  | zero =>
    intro d
    simp [shadowChainAux]
  | succ fuel ih =>
    intro d
    cases hl : lookupShadow m d with
    | none =>
      rw [shadowChainAux_none m fuel d hl]
      simp
    | some s =>
      rw [shadowChainAux_cons m fuel d s hl]
      simpa using ih s

theorem shadowChainAux_stable (m : List (Nat × Nat)) (fuel : Nat) :
    ∀ d, (shadowChainAux m fuel d).length < fuel →
      ∀ g, fuel ≤ g → shadowChainAux m g d = shadowChainAux m fuel d := by
  induction fuel with
  | zero =>
    intro d h
    exact absurd h (by omega)
  | succ fuel ih =>
    intro d h g hg
    cases g with
    | zero => omega
    | succ g0 =>
      have hg0 : fuel ≤ g0 := by omega
      cases hl : lookupShadow m d with
      | none =>
        rw [shadowChainAux_none m g0 d hl, shadowChainAux_none m fuel d hl]
      | some s =>
        have hlen : (shadowChainAux m fuel s).length < fuel := by
          rw [shadowChainAux_cons m fuel d s hl, List.length_cons] at h
          omega
        rw [shadowChainAux_cons m g0 d s hl,
          shadowChainAux_cons m fuel d s hl, ih s hlen g0 hg0]

theorem shadowChainAux_step_down (m : List (Nat × Nat)) (fuel : Nat) :
    ∀ d, (shadowChainAux m (fuel + 1) d).length ≤ fuel →
      shadowChainAux m fuel d = shadowChainAux m (fuel + 1) d := by
  induction fuel with
  | zero =>
    intro d h
    cases hl : lookupShadow m d with
    | none =>
      rw [shadowChainAux_none m 0 d hl]
      simp [shadowChainAux]
    | some s =>
      rw [shadowChainAux_cons m 0 d s hl] at h
      simp at h
  | succ fuel ih =>
    intro d h
    cases hl : lookupShadow m d with
    | none =>
      rw [shadowChainAux_none m (fuel + 1) d hl,
        shadowChainAux_none m fuel d hl]
    | some s =>
      rw [shadowChainAux_cons m (fuel + 1) d s hl, List.length_cons] at h
      have h2 : (shadowChainAux m (fuel + 1) s).length ≤ fuel := by omega
      rw [shadowChainAux_cons m fuel d s hl,
        shadowChainAux_cons m (fuel + 1) d s hl, ih s h2]

theorem shadowChainAux_ends (m : List (Nat × Nat)) (fuel : Nat) :
    ∀ d, (shadowChainAux m fuel d).length < fuel →
      iterShadow m ((shadowChainAux m fuel d).length + 1) d = none := by
  induction fuel with
  | zero =>
    intro d h
    exact absurd h (by omega)
  | succ fuel ih =>
    intro d h
    cases hl : lookupShadow m d with
    | none =>
      rw [shadowChainAux_none m fuel d hl]
      simp only [List.length_nil, Nat.zero_add]
      rw [iterShadow_one, hl]
    | some s =>
      have h2 : (shadowChainAux m fuel s).length < fuel := by
        rw [shadowChainAux_cons m fuel d s hl, List.length_cons] at h
        omega
      rw [shadowChainAux_cons m fuel d s hl, List.length_cons,
        iterShadow_cons m ((shadowChainAux m fuel s).length + 1) d s hl]
      exact ih s h2

theorem iterShadow_cycle_absurd (m : List (Nat × Nat))
    (hacyc : ShadowAcyclic m) (x k : Nat) (hk : 0 < k)
    (h : iterShadow m k x = some x) : False := by
  cases k with
  | zero => omega
  | succ k => exact hacyc x k h

theorem shadowChainAux_getElem_ne (m : List (Nat × Nat))
    (hacyc : ShadowAcyclic m) (fuel d i j : Nat)
    (hi : i < (shadowChainAux m fuel d).length)
    (hj : j < (shadowChainAux m fuel d).length) (hlt : i < j) :
    (shadowChainAux m fuel d)[i] ≠ (shadowChainAux m fuel d)[j] := by
  intro heq
  have h1 := shadowChainAux_getElem m fuel d i hi
  have h2 := shadowChainAux_getElem m fuel d j hj
  rw [heq] at h1
  have hadd := iterShadow_add m (i + 1) (j - i) d
  rw [(by omega : i + 1 + (j - i) = j + 1)] at hadd
  rw [h2] at hadd
  simp only [h1] at hadd
  exact iterShadow_cycle_absurd m hacyc ((shadowChainAux m fuel d)[j])
    (j - i) (by omega) hadd.symm

theorem shadowChainAux_nodup (m : List (Nat × Nat))
    (hacyc : ShadowAcyclic m) (fuel d : Nat) :
    (shadowChainAux m fuel d).Nodup := by
  rw [List.nodup_iff_injective_get]
  rintro ⟨i, hi⟩ ⟨j, hj⟩ hij
  simp only [List.get_eq_getElem] at hij
  rcases Nat.lt_trichotomy i j with hlt | heq | hlt
  · exact absurd hij (shadowChainAux_getElem_ne m hacyc fuel d i j hi hj hlt)
  · subst heq
    rfl
  · exact absurd hij.symm
      (shadowChainAux_getElem_ne m hacyc fuel d j i hj hi hlt)

theorem shadowChainAux_not_mem_self (m : List (Nat × Nat))
    (hacyc : ShadowAcyclic m) (fuel d : Nat) :
    d ∉ shadowChainAux m fuel d := by
  intro hmem
  obtain ⟨i, hi, hg⟩ := List.mem_iff_getElem.mp hmem
  have := shadowChainAux_getElem m fuel d i hi
  rw [hg] at this
  exact hacyc d i this

theorem shadowChainAux_key_mem (m : List (Nat × Nat)) (x y : Nat)
    (h : lookupShadow m x = some y) : x ∈ m.map Prod.fst := by
  unfold lookupShadow at h
  cases hf : List.find? (fun p => p.1 == x) m with
  | none =>
    rw [hf] at h
    cases h
  | some p =>
    have hp := List.find?_some hf
    have hpm : p ∈ m := List.mem_of_find?_eq_some hf
    have hx : p.1 = x := by simpa using hp
    rw [← hx]
    exact List.mem_map_of_mem Prod.fst hpm

theorem shadowChainAux_length_le_keys (m : List (Nat × Nat))
    (hacyc : ShadowAcyclic m) (fuel d : Nat) :
    (shadowChainAux m fuel d).length ≤ m.length := by
  cases hn : (shadowChainAux m fuel d).length with
  | zero => exact Nat.zero_le _
  | succ n =>
    have hconsumed : ∀ (i : Nat) (h1 : i < (shadowChainAux m fuel d).length)
        (h2 : i + 1 < (shadowChainAux m fuel d).length),
        lookupShadow m ((shadowChainAux m fuel d)[i]) =
          some ((shadowChainAux m fuel d)[i + 1]) := by
      intro i h1 h2
      have ha := shadowChainAux_getElem m fuel d i h1
      have hb := shadowChainAux_getElem m fuel d (i + 1) h2
      have hadd := iterShadow_add m (i + 1) 1 d
      simp only [ha] at hadd
      rw [iterShadow_one] at hadd
      rw [hadd] at hb
      exact hb
    have hkeys : ∀ x ∈ d :: (shadowChainAux m fuel d).take n,
        x ∈ m.map Prod.fst := by
      intro x hx
      rcases List.mem_cons.mp hx with hx | hx
      · have h0 := shadowChainAux_getElem m fuel d 0 (by omega)
        rw [iterShadow_one] at h0
        rw [hx]
        exact shadowChainAux_key_mem m d _ h0
      · obtain ⟨i, hi, hg⟩ := List.mem_iff_getElem.mp hx
        have hi2 : i < n := by
          rw [List.length_take] at hi
          omega
        have hi3 : i < (shadowChainAux m fuel d).length := by omega
        have hg2 : (shadowChainAux m fuel d)[i] = x := by
          rw [List.getElem_take] at hg
          exact hg
        have hkey := hconsumed i hi3 (by omega)
        rw [hg2] at hkey
        exact shadowChainAux_key_mem m x _ hkey
    have hnd : (d :: (shadowChainAux m fuel d).take n).Nodup := by
      rw [List.nodup_cons]
      constructor
      · intro hmem
        exact shadowChainAux_not_mem_self m hacyc fuel d
          (List.take_subset n _ hmem)
      · exact (shadowChainAux_nodup m hacyc fuel d).sublist
          (List.take_sublist n _)
    have hsp := List.subperm_of_subset hnd hkeys
    have hle := hsp.length_le
    rw [List.length_map] at hle
    have hlen : (d :: (shadowChainAux m fuel d).take n).length = n + 1 := by
      simp only [List.length_cons, List.length_take]
      omega
    rw [hlen] at hle
    omega

theorem shadowChainAux_stable_above (m : List (Nat × Nat))
    (hacyc : ShadowAcyclic m) (d : Nat) :
    ∀ fuel, m.length ≤ fuel →
      shadowChainAux m fuel d = getShorthandShadowedDecls m d := by
  have hb : (shadowChainAux m (m.length + 1) d).length ≤ m.length :=
    shadowChainAux_length_le_keys m hacyc (m.length + 1) d
  have hstep : shadowChainAux m m.length d =
      shadowChainAux m (m.length + 1) d :=
    shadowChainAux_step_down m m.length d hb
  intro fuel hf
  rcases Nat.eq_or_lt_of_le hf with heq | hlt
  · rw [← heq]
    rfl
  · have hlen1 : (shadowChainAux m (m.length + 1) d).length < m.length + 1 :=
      by omega
    have hs := shadowChainAux_stable m (m.length + 1) d hlen1 fuel (by omega)
    unfold getShorthandShadowedDecls
    rw [hs, ← hstep]

/-- Claim C6: for any declaration, building the shadow chain by
repeatedly following the shadow map until absent terminates under the
acyclicity precondition — any fuel budget of at least the size of the map
computes the same chain, and the entry after the last is absent — and the
chain is the ordered innermost-to-outermost sequence of shadowed
declarations (its i-th entry is the (i+1)-fold shadow of the start), with
no duplicate entries and excluding the starting declaration itself. -/
theorem shadowChain_terminates_ordered_nodup (m : List (Nat × Nat))
    (d : Nat) (hacyc : ShadowAcyclic m) :
    (∀ fuel, m.length ≤ fuel →
      shadowChainAux m fuel d = getShorthandShadowedDecls m d) ∧
    (∀ (i : Nat) (h : i < (getShorthandShadowedDecls m d).length),
      iterShadow m (i + 1) d = some ((getShorthandShadowedDecls m d)[i])) ∧
    iterShadow m ((getShorthandShadowedDecls m d).length + 1) d = none ∧
    (getShorthandShadowedDecls m d).Nodup ∧
    d ∉ getShorthandShadowedDecls m d := by
  refine ⟨shadowChainAux_stable_above m hacyc d, ?_, ?_, ?_, ?_⟩
  · intro i h
    exact shadowChainAux_getElem m m.length d i h
  · have hb := shadowChainAux_length_le_keys m hacyc (m.length + 1) d
    have hends := shadowChainAux_ends m (m.length + 1) d (by omega)
    have hstable := shadowChainAux_stable_above m hacyc d (m.length + 1)
      (by omega)
    rw [hstable] at hends
    exact hends
  · exact shadowChainAux_nodup m hacyc m.length d
  · exact shadowChainAux_not_mem_self m hacyc m.length d

theorem shadowAcyclic_of_lt (m : List (Nat × Nat))
    (hlt : ∀ a b, lookupShadow m a = some b → a < b) : ShadowAcyclic m := by
  have hmono : ∀ k d x, iterShadow m k d = some x → d ≤ x := by
    intro k
    induction k with
    | zero =>
      intro d x h
      simp [iterShadow] at h
      omega
    | succ k ih =>
      intro d x h
      rw [iterShadow_succ] at h
      cases hl : lookupShadow m d with
      | none =>
        rw [hl] at h
        cases h
      | some s =>
        rw [hl] at h
        have h1 := hlt d s hl
        have h2 := ih s x h
        omega
  intro d k hcontra
  rw [iterShadow_succ] at hcontra
  cases hl : lookupShadow m d with
  | none =>
    rw [hl] at hcontra
    cases hcontra
  | some s =>
    rw [hl] at hcontra
    have h1 := hlt d s hl
    have h2 := hmono k s d hcontra
    omega

/-- Witness for claim C6: the shadow map sending declaration 1 to 2 and
2 to 3 (acyclic): the chain from 1 is stable at any sufficient fuel, its
entries are the iterated shadows, the entry after the last is absent, it
has no duplicates, and it excludes 1 itself. -/
theorem shadowChain_terminates_ordered_nodup_witness :
    shadowChainAux sampleShadowMap 5 1 =
      getShorthandShadowedDecls sampleShadowMap 1 ∧
    iterShadow sampleShadowMap
      ((getShorthandShadowedDecls sampleShadowMap 1).length + 1) 1 = none ∧
    (getShorthandShadowedDecls sampleShadowMap 1).Nodup ∧
    1 ∉ getShorthandShadowedDecls sampleShadowMap 1 := by
  have hacyc : ShadowAcyclic sampleShadowMap := by
    apply shadowAcyclic_of_lt
    intro a b h
    by_cases h1 : (1 : Nat) = a
    · subst h1
      simp [lookupShadow, sampleShadowMap, List.find?] at h
      omega
    · by_cases h2 : (2 : Nat) = a
      · subst h2
        simp [lookupShadow, sampleShadowMap, List.find?] at h
        omega
      · have hb1 : ((1 : Nat) == a) = false := by simpa using h1
        have hb2 : ((2 : Nat) == a) = false := by simpa using h2
        simp [lookupShadow, sampleShadowMap, List.find?, hb1, hb2] at h
  have h := shadowChain_terminates_ordered_nodup sampleShadowMap 1 hacyc
  exact ⟨h.1 5 (by decide), h.2.2.1, h.2.2.2.1, h.2.2.2.2⟩

end CursorInfoModel
